import Mathlib

/-!
# AC3Filter Audition plug-in: the streaming adapters of `audition.cpp`

A shallow embedding of `CoolInput` (decode direction), `CoolOutput` (encode
direction), `make_spk` and `OpenFilterOutput`, followed by the properties of
the adapters.

Conventions of the embedding

* `audition.cpp` is the only translation unit modelled.  The classes it uses
  (`FileParser`, `DecoderGraph`, `FilterChain`, `AC3Enc`, `RAWSink`,
  `RegistryKey`) are declared elsewhere; each is an abstract state type with a
  record of operations (`FileParserOps`, `DecoderOps`, `PipelineOps`,
  `SinkOps`), so every theorem holds for every behaviour of these
  collaborators unless a hypothesis restricts it.
* A C++ method that mutates its object and returns `bool` becomes a function
  returning the flag together with the new object state.
* A `Chunk` is a view `(rawdata, size)`; the model keeps the `size` bytes the
  view covers as a list, so `size` is the length of that list.
* The `while` loops are iterated by a fuel counter.  Running out of fuel is
  reported as `Step.cont` (the loop is still iterating), a `return` statement
  as `Step.ret`.
* Each adapter carries a log of the calls it makes on its collaborators.  The
  log is ghost state: nothing in the control flow reads it.
-/

namespace Audition

/-! ## Data model -/

/-- One octet of audio data. -/
abbrev Byte := Nat

/-- Modelled from the spec: the sample encodings of a format descriptor
(`FORMAT_*` constants of the codec library, absent from this file).  `other`
stands for every encoding `audition.cpp` never names, such as the compressed
encodings of the frames of a source file. -/
inductive Format where
  | FORMAT_UNKNOWN
  | FORMAT_LINEAR
  | FORMAT_PCM16
  | FORMAT_PCM24
  | FORMAT_PCM32
  | other (code : Nat)
  deriving DecidableEq, Repr

/-- Modelled from the spec: the channel masks of a format descriptor (`MODE_*`
constants of the codec library).  `zero` is the literal mask `0`. -/
inductive Mask where
  | zero
  | MODE_MONO
  | MODE_STEREO
  | MODE_QUADRO
  | MODE_3_2
  | MODE_5_1
  | other (bits : Nat)
  deriving DecidableEq, Repr

/-- Modelled from the spec: the reference level of a format descriptor.
`unset` is the level a three-argument `Speakers(format, mask, rate)` gets,
`full_scale` is the level `1.0` that `CoolOutput::open` stores. -/
inductive Level where
  | unset
  | full_scale
  deriving DecidableEq, Repr

/-- Modelled from the spec: the format descriptor `Speakers` (sample encoding,
channel mask, sample rate), an immutable value compared by equality. -/
structure Speakers where
  format : Format
  mask : Mask
  sample_rate : Int
  level : Level := Level.unset
  deriving DecidableEq, Repr

/-- Modelled from the spec: the sentinel `spk_unknown`. -/
def spk_unknown : Speakers := { format := Format.FORMAT_UNKNOWN, mask := Mask.zero, sample_rate := 0 }

/-- Modelled from the spec: `Speakers::is_unknown`, the test for the sentinel
encoding. -/
def Speakers.is_unknown (s : Speakers) : Bool := s.format == Format.FORMAT_UNKNOWN

/-- The macro `OUTPUT_FORMAT` (lines 24-26). -/
def OUTPUT_FORMAT : Format := Format.FORMAT_PCM16

/-- Modelled from the spec: `Chunk`, a view over a contiguous span of audio
bytes tagged with a format descriptor.  `rawdata` lists the bytes the view
still covers. -/
structure Chunk where
  spk : Speakers
  rawdata : List Byte
  deriving DecidableEq, Repr

/-- The field `Chunk::size`. -/
def Chunk.size (c : Chunk) : Nat := c.rawdata.length

/-- Modelled from the spec: `Chunk::set_empty`. -/
def Chunk.set_empty (spk : Speakers) : Chunk := { spk := spk, rawdata := [] }

/-- Modelled from the spec: `Chunk::set_rawdata(spk, rawdata, size)`; `data`
is the `size` bytes at `rawdata`. -/
def Chunk.set_rawdata (spk : Speakers) (data : List Byte) : Chunk := { spk := spk, rawdata := data }

/-- Modelled from the spec: `Chunk::drop`, "drop N units from the front"
(advances the offset without copying). -/
def Chunk.drop (c : Chunk) (n : Nat) : Chunk := { c with rawdata := c.rawdata.drop n }

/-- The two frame-format detectors `ac3_header` and `dts_header`. -/
inductive HeaderParser where
  | ac3_header
  | dts_header
  deriving DecidableEq, Repr

/-! ## Collaborators of `CoolInput` -/

/-- The operations of `FileParser` that `CoolInput` calls, over an abstract
parser state `F`. -/
structure FileParserOps (F : Type) where
  /-- The call `file.open(filename, parser, max_scan)`. -/
  open_ : F → String → HeaderParser → Nat → Bool × F
  /-- The call `file.stats()`. -/
  stats : F → Bool × F
  /-- The call `file.load_frame()`. -/
  load_frame : F → Bool × F
  /-- The call `file.close()`. -/
  close : F → F
  /-- The call `file.seek(pos)`. -/
  seek : F → Nat → F
  /-- The call `file.is_open()`. -/
  is_open : F → Bool
  /-- The call `file.eof()`. -/
  eof : F → Bool
  /-- The call `file.get_spk()`. -/
  get_spk : F → Speakers
  /-- The bytes `file.get_frame()[0 .. file.get_frame_size())`. -/
  get_frame : F → List Byte
  /-- The text `file.stream_info(buf, size)` stores into a buffer of `size`
  characters. -/
  stream_info : F → Nat → String

/-- The operations of `DecoderGraph` that `CoolInput` calls, over an abstract
decoder state `D`.  `get_chunk` receives the chunk its out-parameter points
to and returns the chunk it leaves there. -/
structure DecoderOps (D : Type) where
  /-- The call `dec.set_user(spk)`. -/
  set_user : D → Speakers → Bool × D
  /-- The call `dec.reset()`. -/
  reset : D → D
  /-- The call `dec.is_empty()`. -/
  is_empty : D → Bool
  /-- The call `dec.get_chunk(&chunk)`. -/
  get_chunk : D → Chunk → Bool × Chunk × D
  /-- The call `dec.process(&chunk)`. -/
  process : D → Chunk → Bool × D

/-! ## `CoolInput` -/

/-- The data members of `CoolInput` (lines 44-48). -/
structure CoolInput (F D : Type) where
  file_spk : Speakers
  out_chunk : Chunk
  file : F
  dec : D
  info_buf : String

/-- The method `CoolInput::is_open` (lines 97-100). -/
def CoolInput.is_open {F D : Type} (fp : FileParserOps F) (s : CoolInput F D) : Bool :=
  fp.is_open s.file

/-- The method `CoolInput::close` (lines 102-109). -/
def CoolInput.close {F D : Type} (fp : FileParserOps F) (dc : DecoderOps D)
    (s : CoolInput F D) : CoolInput F D :=
  { s with
    file := fp.close s.file
    dec := dc.reset s.dec
    file_spk := spk_unknown
    out_chunk := Chunk.set_empty spk_unknown }

/-- A call `CoolInput::open` makes on the file parser, with its result. -/
inductive ProbeEvent where
  | opened (parser : HeaderParser) (ok : Bool)
  | stats (ok : Bool)
  | load_frame (ok : Bool)
  deriving DecidableEq, Repr

/-- What `CoolInput::open` leaves behind: the returned flag, the object and the
calls made on the file parser, in order. -/
structure OpenResult (F D : Type) where
  ok : Bool
  state : CoolInput F D
  log : List ProbeEvent

/-- Lines 80-94 of `CoolInput::open`: load the first frame, fill the format
and the description, rewind and reset. -/
def CoolInput.open_finish {F D : Type} (fp : FileParserOps F) (dc : DecoderOps D)
    (s : CoolInput F D) (log : List ProbeEvent) : OpenResult F D :=
  let lf := fp.load_frame s.file
  let s1 := { s with file := lf.2 }
  let log1 := log ++ [ProbeEvent.load_frame lf.1]
  if !lf.1 then
    { ok := false, state := CoolInput.close fp dc s1, log := log1 }
  else
    let s2 := { s1 with file_spk := fp.get_spk s1.file, info_buf := fp.stream_info s1.file 1024 }
    let s3 := { s2 with file := fp.seek s2.file 0 }
    let s4 := { s3 with dec := dc.reset s3.dec }
    let s5 := { s4 with out_chunk := Chunk.set_empty spk_unknown }
    { ok := true, state := s5, log := log1 }

/-- The method `CoolInput::open` (lines 62-95).  The nested `if`s of lines
71-78 are kept as written: the DTS detector is reached only through a
successful AC3 open whose statistics fail. -/
def CoolInput.open_ {F D : Type} (fp : FileParserOps F) (dc : DecoderOps D)
    (s : CoolInput F D) (filename : String) : OpenResult F D :=
  let s0 := CoolInput.close fp dc s
  let su := dc.set_user s0.dec { format := OUTPUT_FORMAT, mask := Mask.zero, sample_rate := 0 }
  let s1 := { s0 with dec := su.2 }
  if !su.1 then
    { ok := false, state := s1, log := [] }
  else
    let o1 := fp.open_ s1.file filename HeaderParser.ac3_header 1000000
    let s2 := { s1 with file := o1.2 }
    let log2 := [ProbeEvent.opened HeaderParser.ac3_header o1.1]
    if o1.1 then
      let st1 := fp.stats s2.file
      let s3 := { s2 with file := st1.2 }
      let log3 := log2 ++ [ProbeEvent.stats st1.1]
      if !st1.1 then
        let o2 := fp.open_ s3.file filename HeaderParser.dts_header 1000000
        let s4 := { s3 with file := o2.2 }
        let log4 := log3 ++ [ProbeEvent.opened HeaderParser.dts_header o2.1]
        if o2.1 then
          let st2 := fp.stats s4.file
          let s5 := { s4 with file := st2.2 }
          let log5 := log4 ++ [ProbeEvent.stats st2.1]
          if !st2.1 then
            { ok := false, state := CoolInput.close fp dc s5, log := log5 }
          else CoolInput.open_finish fp dc s5 log5
        else CoolInput.open_finish fp dc s4 log4
      else CoolInput.open_finish fp dc s3 log3
    else CoolInput.open_finish fp dc s2 log2

/-- A call or copy made by `CoolInput::read`, with the size of the pending
chunk `out_chunk` at that moment. -/
inductive ReadEvent where
  /-- The `memcpy` of line 155: `copy_size` bytes out of a pending chunk of
  `pending` bytes, `left` bytes remaining in it after `drop`. -/
  | memcpy (pending copy_size left : Nat)
  /-- The call `dec.get_chunk(&out_chunk)` of line 166 and the bytes of the
  chunk it left in `out_chunk`. -/
  | get_chunk (pending : Nat) (ok : Bool) (produced : List Byte)
  /-- The call `file.load_frame()` of line 173; `dec_empty` is what
  `dec.is_empty()` answered on line 164. -/
  | load_frame (pending : Nat) (dec_empty : Bool) (ok : Bool)
  /-- The call `dec.process(&chunk)` of line 183. -/
  | process (ok : Bool)
  deriving DecidableEq, Repr

/-- The object and the locals of `CoolInput::read` at the top of the loop:
`size` and `out_size` are the C++ variables, `buf` lists the bytes stored
through the caller's pointer so far. -/
structure ReadLoop (F D : Type) where
  self : CoolInput F D
  size : Nat
  out_size : Nat
  buf : List Byte
  log : List ReadEvent

/-- How a piece of `CoolInput::read` ends: with a `return value` (`failed`
marks the two `return 0` of a refused decoder call), or by going on. -/
inductive Step (F D : Type) where
  | ret (value : Nat) (failed : Bool) (l : ReadLoop F D)
  | cont (l : ReadLoop F D)

/-- Lines 152-162: drain the pending chunk into the caller's buffer. -/
def CoolInput.drain {F D : Type} (l : ReadLoop F D) : Step F D :=
  if l.self.out_chunk.size ≠ 0 then
    let copy_size := min l.self.out_chunk.size l.size
    let l1 : ReadLoop F D :=
      { self := { l.self with out_chunk := l.self.out_chunk.drop copy_size }
        size := l.size - copy_size
        out_size := l.out_size + copy_size
        buf := l.buf ++ l.self.out_chunk.rawdata.take copy_size
        log := l.log ++ [ReadEvent.memcpy l.self.out_chunk.size copy_size
                  (l.self.out_chunk.drop copy_size).size] }
    if l1.size = 0 then Step.ret l1.out_size false l1 else Step.cont l1
  else Step.cont l

/-- Lines 164-185: ask the decoder for its next chunk, or stop at the end of
the input, or load the next frame and hand it to the decoder.  (The `_DEBUG`
block of lines 176-180 only computes a local `double` and is left out.) -/
def CoolInput.produce {F D : Type} (fp : FileParserOps F) (dc : DecoderOps D)
    (l : ReadLoop F D) : Step F D :=
  if !dc.is_empty l.self.dec then
    let g := dc.get_chunk l.self.dec l.self.out_chunk
    let l1 : ReadLoop F D :=
      { l with
        self := { l.self with out_chunk := g.2.1, dec := g.2.2 }
        log := l.log ++ [ReadEvent.get_chunk l.self.out_chunk.size g.1 g.2.1.rawdata] }
    if !g.1 then Step.ret 0 true l1 else Step.cont l1
  else if fp.eof l.self.file then Step.ret l.out_size false l
  else
    let lf := fp.load_frame l.self.file
    let l1 : ReadLoop F D :=
      { l with
        self := { l.self with file := lf.2 }
        log := l.log ++ [ReadEvent.load_frame l.self.out_chunk.size
                  (dc.is_empty l.self.dec) lf.1] }
    if lf.1 then
      let chunk := Chunk.set_rawdata (fp.get_spk l1.self.file) (fp.get_frame l1.self.file)
      let p := dc.process l1.self.dec chunk
      let l2 : ReadLoop F D :=
        { l1 with
          self := { l1.self with dec := p.2 }
          log := l1.log ++ [ReadEvent.process p.1] }
      if !p.1 then Step.ret 0 true l2 else Step.cont l2
    else Step.cont l1

/-- One pass through the body of `while (1)` (lines 150-186). -/
def CoolInput.iterate {F D : Type} (fp : FileParserOps F) (dc : DecoderOps D)
    (l : ReadLoop F D) : Step F D :=
  match CoolInput.drain l with
  | Step.ret v f l1 => Step.ret v f l1
  | Step.cont l1 => CoolInput.produce fp dc l1

/-- The loop `while (1)` of `CoolInput::read`, run for at most `fuel`
passes. -/
def CoolInput.read_loop {F D : Type} (fp : FileParserOps F) (dc : DecoderOps D) :
    Nat → ReadLoop F D → Step F D
  | 0, l => Step.cont l
  | fuel + 1, l =>
    match CoolInput.iterate fp dc l with
    | Step.ret v f l1 => Step.ret v f l1
    | Step.cont l1 => CoolInput.read_loop fp dc fuel l1

/-- The method `CoolInput::read` (lines 143-189), its loop run for at most
`fuel` passes. -/
def CoolInput.read {F D : Type} (fp : FileParserOps F) (dc : DecoderOps D)
    (fuel : Nat) (s : CoolInput F D) (size : Nat) : Step F D :=
  if !fp.is_open s.file || fp.eof s.file then
    Step.ret 0 false { self := s, size := size, out_size := 0, buf := [], log := [] }
  else
    CoolInput.read_loop fp dc fuel { self := s, size := size, out_size := 0, buf := [], log := [] }

/-! ## Collaborators of `CoolOutput` -/

/-- The operations `CoolOutput` calls on its pipeline, over an abstract state
`P`.  The members `conv`, `enc` and `chain` are one state: the constructor
(lines 209-215) stores pointers to `conv` and `enc` in `chain`, so a call on
any of them may be seen through the others.  `get_chunk` receives the chunk
its out-parameter points to and returns the chunk it leaves there. -/
structure PipelineOps (P : Type) where
  /-- The call `enc.set_bitrate(bitrate)`. -/
  set_bitrate : P → Int → Bool × P
  /-- The call `enc.set_input(spk)`. -/
  set_input : P → Speakers → Bool × P
  /-- The call `chain.reset()`. -/
  reset : P → P
  /-- The call `chain.process(&chunk)`; the chunk is read, not changed. -/
  process : P → Chunk → Bool × P
  /-- The call `chain.is_empty()`. -/
  is_empty : P → Bool
  /-- The call `chain.get_chunk(&chunk)`. -/
  get_chunk : P → Chunk → Bool × Chunk × P

/-- The operations `CoolOutput` calls on its `RAWSink`, over an abstract state
`K`. -/
structure SinkOps (K : Type) where
  /-- The call `sink.open(filename)`. -/
  open_ : K → String → Bool × K
  /-- The call `sink.close()`. -/
  close : K → K
  /-- The call `sink.is_open()`. -/
  is_open : K → Bool
  /-- The call `sink.process(&chunk)`; the chunk is read, not changed. -/
  process : K → Chunk → Bool × K

/-! ## `CoolOutput` -/

/-- The data members of `CoolOutput` (lines 202-206), with `conv`, `enc` and
`chain` gathered in `pipe`. -/
structure CoolOutput (P K : Type) where
  spk : Speakers
  pipe : P
  sink : K

/-- A call made on the way through `OpenFilterOutput`, `CoolOutput::open`,
`CoolOutput::close` and `CoolOutput::write`, with its arguments and result. -/
inductive OutEvent where
  | reg_get_int32 (name : String) (ok : Bool)
  | new_CoolOutput (ok : Bool)
  | output_open (filename : String) (spk : Speakers) (bitrate : Int)
  | enc_set_bitrate (bitrate : Int) (ok : Bool)
  | enc_set_input (spk : Speakers) (ok : Bool)
  | sink_open (filename : String) (ok : Bool)
  | sink_close
  | chain_reset
  | chain_process (chunk : Chunk) (ok : Bool)
  | chain_get_chunk (ok : Bool) (chunk : Chunk)
  | sink_process (chunk : Chunk) (ok : Bool)
  deriving DecidableEq, Repr

/-- The method `CoolOutput::is_open` (lines 240-243). -/
def CoolOutput.is_open {P K : Type} (sk : SinkOps K) (o : CoolOutput P K) : Bool :=
  sk.is_open o.sink

/-- The method `CoolOutput::close` (lines 245-251). -/
def CoolOutput.close {P K : Type} (pp : PipelineOps P) (sk : SinkOps K)
    (o : CoolOutput P K) : CoolOutput P K :=
  { spk := spk_unknown, sink := sk.close o.sink, pipe := pp.reset o.pipe }

/-- The calls `CoolOutput::close` makes. -/
def close_log : List OutEvent := [OutEvent.sink_close, OutEvent.chain_reset]

/-- What `CoolOutput::open` leaves behind. -/
structure OutputOpenResult (P K : Type) where
  ok : Bool
  state : CoolOutput P K
  log : List OutEvent

/-- The method `CoolOutput::open` (lines 223-238).  The `||` of line 233 does
not call `enc.set_input` once `enc.set_bitrate` has refused. -/
def CoolOutput.open_ {P K : Type} (pp : PipelineOps P) (sk : SinkOps K)
    (o : CoolOutput P K) (filename : String) (spk : Speakers) (bitrate : Int) :
    OutputOpenResult P K :=
  let o0 := CoolOutput.close pp sk o
  let enc_spk : Speakers := { spk with format := Format.FORMAT_LINEAR, level := Level.full_scale }
  let b := pp.set_bitrate o0.pipe bitrate
  let o1 := { o0 with pipe := b.2 }
  let log1 := close_log ++ [OutEvent.enc_set_bitrate bitrate b.1]
  if !b.1 then { ok := false, state := o1, log := log1 }
  else
    let i := pp.set_input o1.pipe enc_spk
    let o2 := { o1 with pipe := i.2 }
    let log2 := log1 ++ [OutEvent.enc_set_input enc_spk i.1]
    if !i.1 then { ok := false, state := o2, log := log2 }
    else
      let k := sk.open_ o2.sink filename
      let o3 := { o2 with sink := k.2 }
      let log3 := log2 ++ [OutEvent.sink_open filename k.1]
      if !k.1 then { ok := false, state := o3, log := log3 }
      else { ok := true, state := { o3 with spk := spk }, log := log3 }

/-- The conversion of the `size_t` total to the `int` that `CoolOutput::write`
returns: the low 32 bits, read as a signed number.  (Taking the low 32 bits
of a sum commutes with the wrap-around of a `size_t` of 32 or 64 bits.) -/
def int_of_size (n : Nat) : Int :=
  if n % 2 ^ 32 < 2 ^ 31 then ((n % 2 ^ 32 : Nat) : Int) else ((n % 2 ^ 32 : Nat) : Int) - 2 ^ 32

/-- The object and the locals of `CoolOutput::write` at the loop test. -/
structure WriteLoop (P K : Type) where
  self : CoolOutput P K
  chunk : Chunk
  out_size : Nat
  log : List OutEvent

/-- How `CoolOutput::write` ends: with a `return value`, or still looping. -/
inductive WriteStep (P K : Type) where
  | ret (value : Int) (l : WriteLoop P K)
  | cont (l : WriteLoop P K)

/-- The loop of lines 260-270, run for at most `fuel` passes, and the
`return out_size` of line 271.  (The `_DEBUG` block of lines 262-266 only
computes a local `double` and is left out.) -/
def CoolOutput.write_loop {P K : Type} (pp : PipelineOps P) (sk : SinkOps K) :
    Nat → WriteLoop P K → WriteStep P K
  | 0, l => WriteStep.cont l
  | fuel + 1, l =>
    if !pp.is_empty l.self.pipe then
      let g := pp.get_chunk l.self.pipe l.chunk
      let l1 : WriteLoop P K :=
        { l with
          self := { l.self with pipe := g.2.2 }
          chunk := g.2.1
          log := l.log ++ [OutEvent.chain_get_chunk g.1 g.2.1] }
      if !g.1 then WriteStep.ret 0 l1
      else
        let k := sk.process l1.self.sink l1.chunk
        let l2 : WriteLoop P K :=
          { l1 with
            self := { l1.self with sink := k.2 }
            log := l1.log ++ [OutEvent.sink_process l1.chunk k.1] }
        if !k.1 then WriteStep.ret 0 l2
        else CoolOutput.write_loop pp sk fuel { l2 with out_size := l2.out_size + l2.chunk.size }
    else WriteStep.ret (int_of_size l.out_size) l

/-- The method `CoolOutput::write` (lines 253-272), its loop run for at most
`fuel` passes; `buf` is the `size` bytes at the caller's pointer. -/
def CoolOutput.write {P K : Type} (pp : PipelineOps P) (sk : SinkOps K)
    (fuel : Nat) (o : CoolOutput P K) (buf : List Byte) : WriteStep P K :=
  let chunk := Chunk.set_rawdata o.spk buf
  let p := pp.process o.pipe chunk
  let l : WriteLoop P K :=
    { self := { o with pipe := p.2 }
      chunk := chunk
      out_size := 0
      log := [OutEvent.chain_process chunk p.1] }
  if !p.1 then WriteStep.ret 0 l
  else CoolOutput.write_loop pp sk fuel l

/-! ## Opening an output -/

/-- The first `switch` of `make_spk` (lines 387-393): the encoding chosen for
`bps`, or `none` on the `default:` label. -/
def make_spk_format (bps : Int) : Option Format :=
  if bps = 16 then some Format.FORMAT_PCM16
  else if bps = 24 then some Format.FORMAT_PCM24
  else if bps = 32 then some Format.FORMAT_PCM32
  else none

/-- The second `switch` of `make_spk` (lines 396-404): the mask chosen for
`nch`, or `none` on the `default:` label. -/
def make_spk_mask (nch : Int) : Option Mask :=
  if nch = 1 then some Mask.MODE_MONO
  else if nch = 2 then some Mask.MODE_STEREO
  else if nch = 4 then some Mask.MODE_QUADRO
  else if nch = 5 then some Mask.MODE_3_2
  else if nch = 6 then some Mask.MODE_5_1
  else none

/-- The function `make_spk` (lines 384-407). -/
def make_spk (bps nch sample_rate : Int) : Speakers :=
  match make_spk_format bps with
  | none => spk_unknown
  | some format =>
    match make_spk_mask nch with
    | none => spk_unknown
    | some mask => { format := format, mask := mask, sample_rate := sample_rate }

/-- Modelled from the spec: the configuration store behind `RegistryKey`, "a
small persisted key-value configuration store" read by name.  An entry that is
absent, non-numeric or corrupt yields no integer. -/
abbrev Registry := String → Option Int

/-- Modelled from the spec: `RegistryKey::get_int32(name, value)`, which
stores the persisted integer in `value` and leaves `value` untouched when the
store yields none.  Returns the flag and the new `value`. -/
def get_int32 (reg : Registry) (name : String) (value : Int) : Bool × Int :=
  match reg name with
  | some v => (true, v)
  | none => (false, value)

/-- What `OpenFilterOutput` leaves behind: the handle (`none` is the null
handle), the number stored through `lpChunkSize` if any, and the calls made,
in order. -/
structure OutputHandle (P K : Type) where
  handle : Option (CoolOutput P K)
  chunk_size : Option Int
  log : List OutEvent

/-- The function `OpenFilterOutput` (lines 409-435).  `reg` is the store under
`REG_KEY`; `fresh` is the object `new CoolOutput()` yields, `none` when it
yields the null pointer.  `wBitsPerSample` and `wChannels` are unsigned
(`WORD`).  A failed `open` deletes the object, whose destructor calls
`close`.  The `dbglog` trace of line 411 is left out. -/
def OpenFilterOutput {P K : Type} (pp : PipelineOps P) (sk : SinkOps K)
    (reg : Registry) (fresh : Option (CoolOutput P K))
    (lpstrFilename : String) (lSamprate : Int) (wBitsPerSample wChannels : Nat) :
    OutputHandle P K :=
  let spk := make_spk wBitsPerSample wChannels lSamprate
  if spk.is_unknown then { handle := none, chunk_size := none, log := [] }
  else
    let r := get_int32 reg "bitrate" 448000
    let bitrate := r.2
    let log1 := [OutEvent.reg_get_int32 "bitrate" r.1]
    match fresh with
    | none => { handle := none, chunk_size := none, log := log1 ++ [OutEvent.new_CoolOutput false] }
    | some output =>
      let log2 := log1 ++ [OutEvent.new_CoolOutput true, OutEvent.output_open lpstrFilename spk bitrate]
      let o := CoolOutput.open_ pp sk output lpstrFilename spk bitrate
      if !o.ok then { handle := none, chunk_size := none, log := log2 ++ o.log ++ close_log }
      else
        { handle := some o.state
          chunk_size := some (8192 * (wBitsPerSample : Int) * (wChannels : Int) / 8)
          log := log2 ++ o.log }

/-! ## Sample collaborators

Small executable collaborators on which the adapters can be run. -/

/-- A file of the sample parser: the frames it holds, and for each detector
whether the file opens against it and whether its statistics pass. -/
structure SampleFile where
  frames : List (List Byte)
  opens : HeaderParser → Bool
  validates : HeaderParser → Bool

/-- The state of the sample parser: the file it is open on, if any, the number
of frames loaded so far and the frame loaded last. -/
structure SampleParser where
  disk : String → Option SampleFile
  current : Option SampleFile
  detector : HeaderParser
  pos : Nat
  frame : List Byte

/-- A sample parser: frames are loaded in order; `eof` holds as soon as the
last frame of the file has been loaded; `load_frame` fails at `eof` and on a
closed parser. -/
def sample_source : FileParserOps SampleParser where
  open_ f name p _ :=
    match f.disk name with
    | some file =>
      if file.opens p then (true, { f with current := some file, detector := p, pos := 0, frame := [] })
      else (false, { f with current := none, pos := 0, frame := [] })
    | none => (false, { f with current := none, pos := 0, frame := [] })
  stats f :=
    match f.current with
    | some file => (file.validates f.detector, f)
    | none => (false, f)
  load_frame f :=
    match f.current with
    | some file =>
      match file.frames.get? f.pos with
      | some fr => (true, { f with pos := f.pos + 1, frame := fr })
      | none => (false, f)
    | none => (false, f)
  close f := { f with current := none, pos := 0, frame := [] }
  seek f pos := { f with pos := pos, frame := [] }
  is_open f := f.current.isSome
  eof f :=
    match f.current with
    | some file => decide (file.frames.length ≤ f.pos)
    | none => true
  get_spk _ := { format := Format.other 0, mask := Mask.MODE_STEREO, sample_rate := 48000 }
  get_frame f := f.frame
  stream_info _ _ := "sample"

/-- A sample decoder: its state is the queue of decoded chunks not yet taken;
`process` decodes a frame into one chunk carrying the bytes of the frame. -/
def sample_decoder : DecoderOps (List Chunk) where
  set_user d _ := (true, d)
  reset _ := []
  is_empty d := d.isEmpty
  get_chunk d c :=
    match d with
    | [] => (false, c, [])
    | x :: rest => (true, x, rest)
  process d c := (true, d ++ [{ c with spk := { c.spk with format := OUTPUT_FORMAT } }])

/-- A sample pipeline: its state is the queue of finished chunks; `process`
turns the input chunk into one finished chunk of half the length. -/
def sample_pipeline : PipelineOps (List Chunk) where
  set_bitrate p b := (decide (0 < b), p)
  set_input p _ := (true, p)
  reset _ := []
  process p c := (true, p ++ [{ c with rawdata := c.rawdata.take (c.rawdata.length / 2) }])
  is_empty p := p.isEmpty
  get_chunk p c :=
    match p with
    | [] => (false, c, [])
    | x :: rest => (true, x, rest)

/-- A sample sink: its state is the file it is open on, if any, and the
chunks written so far. -/
def sample_sink : SinkOps (Option String × List Chunk) where
  open_ _ name := (true, (some name, []))
  close k := (none, k.2)
  is_open k := k.1.isSome
  process k c := (k.1.isSome, (k.1, k.2 ++ [c]))

/-- A freshly constructed `CoolOutput` over the sample collaborators. -/
def sample_output : CoolOutput (List Chunk) (Option String × List Chunk) :=
  { spk := spk_unknown, pipe := [], sink := (none, []) }

/-- A reader over the sample collaborators that holds a partly drained pending
chunk of a file it has open. -/
def sample_mid_drain : CoolInput SampleParser (List Chunk) :=
  { file_spk := { format := Format.other 0, mask := Mask.MODE_STEREO, sample_rate := 48000 }
    out_chunk := { spk := spk_unknown, rawdata := [3, 4] }
    file :=
      { disk := fun _ => none
        current := some { frames := [[1, 2, 3, 4]], opens := fun _ => true, validates := fun _ => true }
        detector := HeaderParser.ac3_header
        pos := 1
        frame := [1, 2, 3, 4] }
    dec := []
    info_buf := "sample" }

/-- A closed reader over the sample collaborators whose disk holds, under every
name, the file `file`. -/
def sample_closed (file : SampleFile) : CoolInput SampleParser (List Chunk) :=
  { file_spk := spk_unknown
    out_chunk := Chunk.set_empty spk_unknown
    file :=
      { disk := fun _ => some file
        current := none
        detector := HeaderParser.ac3_header
        pos := 0
        frame := [] }
    dec := []
    info_buf := "" }

/-- A file that only the DTS detector opens and validates. -/
def dts_only_file : SampleFile :=
  { frames := [[1, 2, 3, 4]]
    opens := fun p => decide (p = HeaderParser.dts_header)
    validates := fun p => decide (p = HeaderParser.dts_header) }

/-- A file that both detectors open and only the DTS detector validates. -/
def dts_valid_file : SampleFile :=
  { frames := [[1, 2, 3, 4]]
    opens := fun _ => true
    validates := fun p => decide (p = HeaderParser.dts_header) }

/-- A reader over the sample collaborators left by a previous file: a pending
chunk, an undrained decoder and an open parser, on a disk holding `file`. -/
def sample_stale (file : SampleFile) : CoolInput SampleParser (List Chunk) :=
  { file_spk := { format := Format.other 1, mask := Mask.MODE_5_1, sample_rate := 44100 }
    out_chunk := { spk := spk_unknown, rawdata := [9, 9] }
    file :=
      { disk := fun _ => some file
        current := some { frames := [[9, 9, 9], [8, 8]], opens := fun _ => true, validates := fun _ => true }
        detector := HeaderParser.ac3_header
        pos := 1
        frame := [9, 9, 9] }
    dec := [{ spk := spk_unknown, rawdata := [8, 8] }]
    info_buf := "previous" }

/-- The bytes of the chunks `dec.get_chunk` delivered, in the order of the
log. -/
def produced : List ReadEvent → List Byte
  | [] => []
  | ReadEvent.get_chunk _ true bytes :: rest => bytes ++ produced rest
  | _ :: rest => produced rest

/-- The drain-before-produce condition on one logged event: a copy takes
`copy_size` of the `pending` bytes and leaves the rest; the decoder is asked
for a chunk only with nothing pending; a frame is loaded only with nothing
pending and an empty decoder. -/
def ReadEvent.drained : ReadEvent → Prop
  | ReadEvent.memcpy pending copy_size left => copy_size ≤ pending ∧ left + copy_size = pending
  | ReadEvent.get_chunk pending _ _ => pending = 0
  | ReadEvent.load_frame pending dec_empty _ => pending = 0 ∧ dec_empty = true
  | ReadEvent.process _ => True

/-- The drain-before-produce condition can be evaluated on a logged event. -/
instance (e : ReadEvent) : Decidable e.drained := by
  cases e <;> unfold ReadEvent.drained <;> infer_instance

/-- The loop invariant of `CoolInput::read` for a call with `n` bytes
requested that found `pending` in the pending chunk. -/
def ReadInv {F D : Type} (pending : List Byte) (n : Nat) (l : ReadLoop F D) : Prop :=
  l.out_size + l.size = n ∧ l.buf.length = l.out_size ∧
  l.buf ++ l.self.out_chunk.rawdata = pending ++ produced l.log ∧
  ∀ e ∈ l.log, e.drained

/-- The loop state a step ends in. -/
def Step.loop {F D : Type} : Step F D → ReadLoop F D
  | Step.ret _ _ l => l
  | Step.cont l => l

/-- The value a step returns, if it returns. -/
def Step.value {F D : Type} : Step F D → Option Nat
  | Step.ret v _ _ => some v
  | Step.cont _ => none

/-- The number of frames the sample parser has not loaded yet. -/
def sample_source_rank (f : SampleParser) : Nat :=
  match f.current with
  | some file => file.frames.length - f.pos
  | none => 0

/-- A file that both detectors open and validate, holding one frame of four
bytes. -/
def one_frame_file : SampleFile :=
  { frames := [[1, 2, 3, 4]], opens := fun _ => true, validates := fun _ => true }

/-- A parser that has lost its input: `load_frame` fails although the parser
is open and does not report `eof` (a read error before the end of the
file). -/
def stuck_source : FileParserOps Unit where
  open_ _ _ _ _ := (true, ())
  stats _ := (true, ())
  load_frame _ := (false, ())
  close _ := ()
  seek _ _ := ()
  is_open _ := true
  eof _ := false
  get_spk _ := spk_unknown
  get_frame _ := []
  stream_info _ _ := ""

/-- An open reader on the stuck parser, with nothing pending. -/
def stuck_reader : CoolInput Unit (List Chunk) :=
  { file_spk := spk_unknown, out_chunk := Chunk.set_empty spk_unknown, file := (), dec := [],
    info_buf := "" }

/-- The reader `open` leaves on the sample file of one frame. -/
def one_frame_reader : CoolInput SampleParser (List Chunk) :=
  (CoolInput.open_ sample_source sample_decoder (sample_closed one_frame_file) "a.ac3").state

/-- The chunks fed to the head of the pipeline, in the order of the log. -/
def fed (log : List OutEvent) : List Chunk :=
  log.filterMap fun e =>
    match e with
    | OutEvent.chain_process c _ => some c
    | _ => none

/-- The chunks the pipeline delivered, in the order of the log. -/
def pulled (log : List OutEvent) : List Chunk :=
  log.filterMap fun e =>
    match e with
    | OutEvent.chain_get_chunk true c => some c
    | _ => none

/-- The chunks the sink accepted, in the order of the log. -/
def pushed (log : List OutEvent) : List Chunk :=
  log.filterMap fun e =>
    match e with
    | OutEvent.sink_process c true => some c
    | _ => none

/-- The chunks offered to the sink, accepted or not, in the order of the
log. -/
def offered (log : List OutEvent) : List Chunk :=
  log.filterMap fun e =>
    match e with
    | OutEvent.sink_process c _ => some c
    | _ => none

/-- Whether a feed, a pull or a push of the log was refused. -/
def refused (log : List OutEvent) : Bool :=
  log.any fun e =>
    match e with
    | OutEvent.chain_process _ ok => !ok
    | OutEvent.chain_get_chunk ok _ => !ok
    | OutEvent.sink_process _ ok => !ok
    | _ => false

/-- The total size of a list of chunks. -/
def total_size (cs : List Chunk) : Nat := (cs.map Chunk.size).sum

/-- The loop invariant of `CoolOutput::write` for a call that fed `chunk`. -/
def WriteInv {P K : Type} (chunk : Chunk) (l : WriteLoop P K) : Prop :=
  fed l.log = [chunk] ∧ refused l.log = false ∧ pushed l.log = pulled l.log ∧
  l.out_size = total_size (pushed l.log)

/-- The loop state a write step ends in. -/
def WriteStep.loop {P K : Type} : WriteStep P K → WriteLoop P K
  | WriteStep.ret _ l => l
  | WriteStep.cont l => l

/-- The value a write step returns, if it returns. -/
def WriteStep.value {P K : Type} : WriteStep P K → Option Int
  | WriteStep.ret v _ => some v
  | WriteStep.cont _ => none

/-- The `CoolOutput` that `CoolOutput::open` leaves on the sample
collaborators for 16-bit stereo at 448000 bit/s. -/
def sample_open_output : CoolOutput (List Chunk) (Option String × List Chunk) :=
  (CoolOutput.open_ sample_pipeline sample_sink sample_output "out.ac3"
    (make_spk 16 2 48000) 448000).state

/-- The number of bytes in two gibibytes, the first total that does not fit
the `int` returned by `CoolOutput::write`. -/
@[irreducible]
def two_gib : Nat := 2 ^ 31

/-- A pipeline that answers each feed with one finished chunk holding `data`;
its state tells whether that chunk is still to be taken. -/
def one_chunk_pipeline (data : List Byte) : PipelineOps Bool where
  set_bitrate p _ := (true, p)
  set_input p _ := (true, p)
  reset _ := false
  process _ _ := (true, true)
  is_empty p := !p
  get_chunk _ c := (true, { c with rawdata := data }, false)

/-- An open `CoolOutput` over a one-chunk pipeline and the sample sink. -/
def one_chunk_output : CoolOutput Bool (Option String × List Chunk) :=
  { spk := make_spk 16 2 48000, pipe := false, sink := (some "out.ac3", []) }

/-! ## Properties -/

/-- C8: `CoolInput::close` is total and, for a file parser whose `close`
closes and is idempotent and a decoder whose `reset` is idempotent, leaves
the reader closed, the decoder reset, the format unknown and the pending chunk
empty; closing again changes nothing. -/
theorem close_idempotent {F D : Type} (fp : FileParserOps F) (dc : DecoderOps D)
    (hclosed : ∀ f, fp.is_open (fp.close f) = false)
    (hclose : ∀ f, fp.close (fp.close f) = fp.close f)
    (hreset : ∀ d, dc.reset (dc.reset d) = dc.reset d)
    (s : CoolInput F D) :
    CoolInput.is_open fp (CoolInput.close fp dc s) = false ∧
    (CoolInput.close fp dc s).file = fp.close s.file ∧
    (CoolInput.close fp dc s).dec = dc.reset s.dec ∧
    (CoolInput.close fp dc s).file_spk = spk_unknown ∧
    (CoolInput.close fp dc s).out_chunk = Chunk.set_empty spk_unknown ∧
    (CoolInput.close fp dc s).out_chunk.size = 0 ∧
    CoolInput.close fp dc (CoolInput.close fp dc s) = CoolInput.close fp dc s := by
  refine ⟨?_, rfl, rfl, rfl, rfl, rfl, ?_⟩
  · simp [CoolInput.is_open, CoolInput.close, hclosed]
  · simp [CoolInput.close, hclose, hreset]

/-- C8 at a sample reader holding a partly drained chunk. -/
theorem close_idempotent_witness :
    CoolInput.is_open sample_source sample_mid_drain = true ∧
    sample_mid_drain.out_chunk.size = 2 ∧
    CoolInput.is_open sample_source
      (CoolInput.close sample_source sample_decoder sample_mid_drain) = false ∧
    CoolInput.close sample_source sample_decoder
      (CoolInput.close sample_source sample_decoder sample_mid_drain)
      = CoolInput.close sample_source sample_decoder sample_mid_drain :=
  have h := close_idempotent sample_source sample_decoder
    (fun _ => rfl) (fun _ => rfl) (fun _ => rfl) sample_mid_drain
  ⟨rfl, rfl, h.1, h.2.2.2.2.2.2⟩

/-- The test `spk.is_unknown()` of line 414 succeeds exactly on an unsupported
width or channel count. -/
theorem is_unknown_make_spk (bps nch rate : Int) :
    (make_spk bps nch rate).is_unknown = true ↔
      ¬ (bps = 16 ∨ bps = 24 ∨ bps = 32) ∨
        ¬ (nch = 1 ∨ nch = 2 ∨ nch = 4 ∨ nch = 5 ∨ nch = 6) := by
  unfold make_spk make_spk_format make_spk_mask
  by_cases h16 : bps = 16 <;> by_cases h24 : bps = 24 <;> by_cases h32 : bps = 32 <;>
  by_cases h1 : nch = 1 <;> by_cases h2 : nch = 2 <;> by_cases h4 : nch = 4 <;>
  by_cases h5 : nch = 5 <;> by_cases h6 : nch = 6 <;>
  simp [h16, h24, h32, h1, h2, h4, h5, h6, Speakers.is_unknown, spk_unknown]

/-- C6: `make_spk` yields the unknown format exactly for a width outside
16, 24, 32 or a channel count outside 1, 2, 4, 5, 6, and otherwise the PCM
encoding of the width, the mask of the channel count and the given rate;
`OpenFilterOutput` called with such a width or count (20 bits, 3 channels)
returns the null handle having made no call at all: no read of the
configuration store, no `CoolOutput`, encoder or sink. -/
theorem make_spk_unknown_iff (bps nch rate : Int) :
    (make_spk bps nch rate = spk_unknown ↔
      ¬ (bps = 16 ∨ bps = 24 ∨ bps = 32) ∨ ¬ (nch = 1 ∨ nch = 2 ∨ nch = 4 ∨ nch = 5 ∨ nch = 6)) ∧
    ((make_spk bps nch rate).is_unknown = true ↔
      ¬ (bps = 16 ∨ bps = 24 ∨ bps = 32) ∨ ¬ (nch = 1 ∨ nch = 2 ∨ nch = 4 ∨ nch = 5 ∨ nch = 6)) ∧
    ((bps = 16 ∨ bps = 24 ∨ bps = 32) → (nch = 1 ∨ nch = 2 ∨ nch = 4 ∨ nch = 5 ∨ nch = 6) →
      (make_spk bps nch rate).sample_rate = rate ∧
      ((make_spk bps nch rate).format = Format.FORMAT_PCM16 ↔ bps = 16) ∧
      ((make_spk bps nch rate).format = Format.FORMAT_PCM24 ↔ bps = 24) ∧
      ((make_spk bps nch rate).format = Format.FORMAT_PCM32 ↔ bps = 32) ∧
      ((make_spk bps nch rate).mask = Mask.MODE_MONO ↔ nch = 1) ∧
      ((make_spk bps nch rate).mask = Mask.MODE_STEREO ↔ nch = 2) ∧
      ((make_spk bps nch rate).mask = Mask.MODE_QUADRO ↔ nch = 4) ∧
      ((make_spk bps nch rate).mask = Mask.MODE_3_2 ↔ nch = 5) ∧
      ((make_spk bps nch rate).mask = Mask.MODE_5_1 ↔ nch = 6)) ∧
    (∀ {P K : Type} (pp : PipelineOps P) (sk : SinkOps K) (reg : Registry)
        (fresh : Option (CoolOutput P K)) (name : String) (w c : Nat),
      ¬ (w = 16 ∨ w = 24 ∨ w = 32) ∨ ¬ (c = 1 ∨ c = 2 ∨ c = 4 ∨ c = 5 ∨ c = 6) →
      (OpenFilterOutput pp sk reg fresh name rate w c).handle.isNone = true ∧
      (OpenFilterOutput pp sk reg fresh name rate w c).chunk_size = none ∧
      (OpenFilterOutput pp sk reg fresh name rate w c).log = []) ∧
    (∀ {P K : Type} (pp : PipelineOps P) (sk : SinkOps K) (reg : Registry)
        (fresh : Option (CoolOutput P K)) (name : String),
      (OpenFilterOutput pp sk reg fresh name rate 20 2).handle.isNone = true ∧
      (OpenFilterOutput pp sk reg fresh name rate 20 2).log = [] ∧
      (OpenFilterOutput pp sk reg fresh name rate 16 3).handle.isNone = true ∧
      (OpenFilterOutput pp sk reg fresh name rate 16 3).log = []) := by
  have key := is_unknown_make_spk bps nch rate
  refine ⟨?_, key, ?_, ?_, ?_⟩
  · rw [← key]
    constructor
    · intro h
      rw [h]
      rfl
    · unfold make_spk make_spk_format make_spk_mask
      by_cases h16 : bps = 16 <;> by_cases h24 : bps = 24 <;> by_cases h32 : bps = 32 <;>
      by_cases h1 : nch = 1 <;> by_cases h2 : nch = 2 <;> by_cases h4 : nch = 4 <;>
      by_cases h5 : nch = 5 <;> by_cases h6 : nch = 6 <;>
      simp [h16, h24, h32, h1, h2, h4, h5, h6, Speakers.is_unknown, spk_unknown]
  · intro hb hn
    unfold make_spk make_spk_format make_spk_mask
    rcases hb with hb | hb | hb <;> rcases hn with hn | hn | hn | hn | hn <;>
    subst hb <;> subst hn <;> simp
  · intro P K pp sk reg fresh name w c hbad
    have hu : (make_spk (w : Int) (c : Int) rate).is_unknown = true := by
      rw [is_unknown_make_spk]
      omega
    simp [OpenFilterOutput, hu]
  · intro P K pp sk reg fresh name
    have h20 : (make_spk (20 : Int) 2 rate).is_unknown = true := by
      rw [is_unknown_make_spk]
      omega
    have h3 : (make_spk (16 : Int) 3 rate).is_unknown = true := by
      rw [is_unknown_make_spk]
      omega
    simp [OpenFilterOutput, h20, h3]

/-- C3 as stated fails: on a file that the DTS detector opens and validates
and whose first frame loads under DTS, but whose AC3 open fails, `open` never
tries DTS and returns failure. -/
theorem open_skips_dts_after_failed_ac3_open :
    (sample_source.open_ (sample_closed dts_only_file).file "a.dts"
      HeaderParser.ac3_header 1000000).1 = false ∧
    (sample_source.open_ (sample_closed dts_only_file).file "a.dts"
      HeaderParser.dts_header 1000000).1 = true ∧
    (sample_source.stats (sample_source.open_ (sample_closed dts_only_file).file "a.dts"
      HeaderParser.dts_header 1000000).2).1 = true ∧
    (sample_source.load_frame (sample_source.open_ (sample_closed dts_only_file).file "a.dts"
      HeaderParser.dts_header 1000000).2).1 = true ∧
    (CoolInput.open_ sample_source sample_decoder (sample_closed dts_only_file) "a.dts").ok
      = false ∧
    (CoolInput.open_ sample_source sample_decoder (sample_closed dts_only_file) "a.dts").log
      = [ProbeEvent.opened HeaderParser.ac3_header false, ProbeEvent.load_frame false] := by
  refine ⟨?_, ?_, ?_, ?_, ?_, ?_⟩ <;> decide

/-- The tail of `open` logs one `load_frame` and returns its flag. -/
theorem open_finish_log_ok {F D : Type} (fp : FileParserOps F) (dc : DecoderOps D)
    (s : CoolInput F D) (log : List ProbeEvent) :
    (CoolInput.open_finish fp dc s log).log = log ++ [ProbeEvent.load_frame (fp.load_frame s.file).1] ∧
    (CoolInput.open_finish fp dc s log).ok = (fp.load_frame s.file).1 := by
  unfold CoolInput.open_finish
  cases h : (fp.load_frame s.file).1 <;> simp [h]

/-- The state the tail of `open` leaves on success. -/
theorem open_finish_state {F D : Type} (fp : FileParserOps F) (dc : DecoderOps D)
    (s : CoolInput F D) (log : List ProbeEvent)
    (h : (CoolInput.open_finish fp dc s log).ok = true) :
    (CoolInput.open_finish fp dc s log).state =
      { file_spk := fp.get_spk (fp.load_frame s.file).2
        out_chunk := Chunk.set_empty spk_unknown
        file := fp.seek (fp.load_frame s.file).2 0
        dec := dc.reset s.dec
        info_buf := fp.stream_info (fp.load_frame s.file).2 1024 } := by
  unfold CoolInput.open_finish at h ⊢
  cases hl : (fp.load_frame s.file).1
  · simp [hl] at h
  · simp [hl]

/-- C3, amended: once `dec.set_user` has accepted the target format, `open`
calls the AC3 open first.  If AC3 opens and its statistics pass, no DTS call
is made and `open` returns what loading the first frame returns.  If AC3
opens and its statistics fail, DTS is opened next: if it opens and its
statistics pass `open` returns what loading the first frame returns, if it
opens and its statistics fail `open` returns failure without loading a frame.
If the AC3 open fails, DTS is not tried.  On a parser whose `load_frame`
fails after a failed open, `open` returns failure whenever neither AC3 nor
the DTS retry both opened and passed statistics.  When `dec.set_user`
refuses, `open` fails before any call on the file. -/
theorem open_probe_order {F D : Type} (fp : FileParserOps F) (dc : DecoderOps D)
    (s : CoolInput F D) (name : String) :
    let r := CoolInput.open_ fp dc s name
    let user := dc.set_user (dc.reset s.dec)
      { format := OUTPUT_FORMAT, mask := Mask.zero, sample_rate := 0 }
    let ac3 := fp.open_ (fp.close s.file) name HeaderParser.ac3_header 1000000
    let ac3_stats := fp.stats ac3.2
    let dts := fp.open_ ac3_stats.2 name HeaderParser.dts_header 1000000
    let dts_stats := fp.stats dts.2
    (user.1 = false → r.ok = false ∧ r.log = []) ∧
    (user.1 = true →
      (∃ rest, r.log = ProbeEvent.opened HeaderParser.ac3_header ac3.1 :: rest) ∧
      (ac3.1 = true → ac3_stats.1 = true →
        r.log = [ProbeEvent.opened HeaderParser.ac3_header true, ProbeEvent.stats true,
                  ProbeEvent.load_frame (fp.load_frame ac3_stats.2).1] ∧
        r.ok = (fp.load_frame ac3_stats.2).1) ∧
      (ac3.1 = true → ac3_stats.1 = false → dts.1 = true → dts_stats.1 = true →
        r.log = [ProbeEvent.opened HeaderParser.ac3_header true, ProbeEvent.stats false,
                  ProbeEvent.opened HeaderParser.dts_header true, ProbeEvent.stats true,
                  ProbeEvent.load_frame (fp.load_frame dts_stats.2).1] ∧
        r.ok = (fp.load_frame dts_stats.2).1) ∧
      (ac3.1 = true → ac3_stats.1 = false → dts.1 = true → dts_stats.1 = false →
        r.log = [ProbeEvent.opened HeaderParser.ac3_header true, ProbeEvent.stats false,
                  ProbeEvent.opened HeaderParser.dts_header true, ProbeEvent.stats false] ∧
        r.ok = false) ∧
      (ac3.1 = false → ∀ ok, ProbeEvent.opened HeaderParser.dts_header ok ∉ r.log) ∧
      ((∀ f p, (fp.open_ f name p 1000000).1 = false →
          (fp.load_frame (fp.open_ f name p 1000000).2).1 = false) →
        ¬ (ac3.1 = true ∧ ac3_stats.1 = true) →
        ¬ (ac3.1 = true ∧ ac3_stats.1 = false ∧ dts.1 = true ∧ dts_stats.1 = true) →
        r.ok = false)) := by
  intro r user ac3 ac3_stats dts dts_stats
  refine ⟨?_, ?_⟩
  · intro hu
    have hu1 : (dc.set_user (dc.reset s.dec)
      { format := OUTPUT_FORMAT, mask := Mask.zero, sample_rate := 0 }).1 = false := hu
    simp [r, CoolInput.open_, CoolInput.close, hu1]
  · intro hu
    have hu1 : (dc.set_user (dc.reset s.dec)
      { format := OUTPUT_FORMAT, mask := Mask.zero, sample_rate := 0 }).1 = true := hu
    have hr : r = CoolInput.open_ fp dc s name := rfl
    have h0 : ac3 = fp.open_ (fp.close s.file) name HeaderParser.ac3_header 1000000 := rfl
    have h1 : ac3_stats = fp.stats ac3.2 := rfl
    have h2 : dts = fp.open_ ac3_stats.2 name HeaderParser.dts_header 1000000 := rfl
    have h3 : dts_stats = fp.stats dts.2 := rfl
    clear_value r ac3 ac3_stats dts dts_stats
    subst h3 h2 h1 h0
    unfold CoolInput.open_ at hr
    simp only [CoolInput.close, hu1, Bool.not_true, Bool.false_eq_true, if_false] at hr
    subst hr
    cases ha : (fp.open_ (fp.close s.file) name HeaderParser.ac3_header 1000000).1 <;>
    cases hb : (fp.stats (fp.open_ (fp.close s.file) name HeaderParser.ac3_header 1000000).2).1 <;>
    cases hc : (fp.open_ (fp.stats (fp.open_ (fp.close s.file) name
      HeaderParser.ac3_header 1000000).2).2 name HeaderParser.dts_header 1000000).1 <;>
    cases hd : (fp.stats (fp.open_ (fp.stats (fp.open_ (fp.close s.file) name
      HeaderParser.ac3_header 1000000).2).2 name HeaderParser.dts_header 1000000).2).1 <;>
    simp [ha, hb, hc, hd, open_finish_log_ok] <;>
    intro hclosed <;>
    first
      | exact hclosed _ _ ha
      | exact hclosed _ _ hc

/-- On the sample parser `load_frame` fails after a failed open. -/
theorem sample_source_failed_open (name : String) (f : SampleParser) (p : HeaderParser)
    (h : (sample_source.open_ f name p 1000000).1 = false) :
    (sample_source.load_frame (sample_source.open_ f name p 1000000).2).1 = false := by
  simp only [sample_source] at h ⊢
  cases hd : f.disk name with
  | none => simp
  | some file =>
    cases ho : file.opens p
    · simp [ho]
    · simp [hd, ho] at h

/-- C3, amended, on the sample collaborators.  On a file that AC3 opens
without validating and that DTS opens and validates: AC3 first, its
statistics computed, then DTS, and success.  On a file that AC3 does not
open: failure. -/
theorem open_probe_order_witness :
    ((CoolInput.open_ sample_source sample_decoder (sample_closed dts_valid_file) "a.dts").log
      = [ProbeEvent.opened HeaderParser.ac3_header true, ProbeEvent.stats false,
          ProbeEvent.opened HeaderParser.dts_header true, ProbeEvent.stats true,
          ProbeEvent.load_frame true] ∧
    (CoolInput.open_ sample_source sample_decoder (sample_closed dts_valid_file) "a.dts").ok
      = true) ∧
    (CoolInput.open_ sample_source sample_decoder (sample_closed dts_only_file) "a.dts").ok
      = false :=
  ⟨((open_probe_order sample_source sample_decoder (sample_closed dts_valid_file) "a.dts").2
      rfl).2.2.1 rfl rfl rfl rfl,
    ((open_probe_order sample_source sample_decoder (sample_closed dts_only_file) "a.dts").2
      rfl).2.2.2.2.2 (sample_source_failed_open "a.dts") (by decide) (by decide)⟩

/-- The outcome of `open` depends on the reader it is called on only through
the closed file parser and the reset decoder. -/
theorem open_congr {F D : Type} (fp : FileParserOps F) (dc : DecoderOps D)
    (s1 s2 : CoolInput F D) (name : String)
    (hfile : fp.close s1.file = fp.close s2.file) (hdec : dc.reset s1.dec = dc.reset s2.dec) :
    (CoolInput.open_ fp dc s1 name).ok = (CoolInput.open_ fp dc s2 name).ok ∧
    (CoolInput.open_ fp dc s1 name).log = (CoolInput.open_ fp dc s2 name).log ∧
    ((CoolInput.open_ fp dc s1 name).ok = true →
      (CoolInput.open_ fp dc s1 name).state = (CoolInput.open_ fp dc s2 name).state) := by
  unfold CoolInput.open_
  simp only [CoolInput.close, hfile, hdec]
  cases hu : (dc.set_user (dc.reset s2.dec)
    { format := OUTPUT_FORMAT, mask := Mask.zero, sample_rate := 0 }).1 <;>
  cases ha : (fp.open_ (fp.close s2.file) name HeaderParser.ac3_header 1000000).1 <;>
  cases hb : (fp.stats (fp.open_ (fp.close s2.file) name HeaderParser.ac3_header 1000000).2).1 <;>
  cases hc : (fp.open_ (fp.stats (fp.open_ (fp.close s2.file) name
    HeaderParser.ac3_header 1000000).2).2 name HeaderParser.dts_header 1000000).1 <;>
  cases hd : (fp.stats (fp.open_ (fp.stats (fp.open_ (fp.close s2.file) name
    HeaderParser.ac3_header 1000000).2).2 name HeaderParser.dts_header 1000000).2).1 <;>
  simp [open_finish_log_ok] <;>
  intro h <;>
  rw [open_finish_state fp dc _ _ (by rw [(open_finish_log_ok fp dc _ _).2]; exact h),
    open_finish_state fp dc _ _ (by rw [(open_finish_log_ok fp dc _ _).2]; exact h)]

/-- The state a successful `open` leaves: the first frame was loaded from some
parser state `f0`, the format and the description are read from the parser
after that load, the parser is then rewound to 0, the decoder reset and the
pending chunk emptied. -/
theorem open_success_shape {F D : Type} (fp : FileParserOps F) (dc : DecoderOps D)
    (s : CoolInput F D) (name : String) (h : (CoolInput.open_ fp dc s name).ok = true) :
    ∃ f0 d, (fp.load_frame f0).1 = true ∧
      (CoolInput.open_ fp dc s name).state =
        { file_spk := fp.get_spk (fp.load_frame f0).2
          out_chunk := Chunk.set_empty spk_unknown
          file := fp.seek (fp.load_frame f0).2 0
          dec := dc.reset d
          info_buf := fp.stream_info (fp.load_frame f0).2 1024 } := by
  unfold CoolInput.open_ at h ⊢
  simp only [CoolInput.close] at h ⊢
  cases hu : (dc.set_user (dc.reset s.dec)
    { format := OUTPUT_FORMAT, mask := Mask.zero, sample_rate := 0 }).1 <;>
  cases ha : (fp.open_ (fp.close s.file) name HeaderParser.ac3_header 1000000).1 <;>
  cases hb : (fp.stats (fp.open_ (fp.close s.file) name HeaderParser.ac3_header 1000000).2).1 <;>
  cases hc : (fp.open_ (fp.stats (fp.open_ (fp.close s.file) name
    HeaderParser.ac3_header 1000000).2).2 name HeaderParser.dts_header 1000000).1 <;>
  cases hd : (fp.stats (fp.open_ (fp.stats (fp.open_ (fp.close s.file) name
    HeaderParser.ac3_header 1000000).2).2 name HeaderParser.dts_header 1000000).2).1 <;>
  simp only [hu, ha, hb, hc, hd, Bool.not_true, Bool.not_false, Bool.false_eq_true, if_false,
    if_true] at h ⊢ <;>
  exact ⟨_, _, (open_finish_log_ok fp dc _ _).2 ▸ h, open_finish_state fp dc _ _ h⟩

/-- C9: whatever the reader held before, a successful `open` leaves the
pending chunk empty, the decoder reset, the parser rewound to the start and
the format and description read from the newly opened file; two readers whose
file parsers close to the same state and whose decoders reset to the same
state end in the same state, so every later `read` returns the same from
both: nothing the adapter held for the previous file survives. -/
theorem open_reset_isolation {F D : Type} (fp : FileParserOps F) (dc : DecoderOps D)
    (s1 s2 : CoolInput F D) (name : String)
    (hfile : fp.close s1.file = fp.close s2.file) (hdec : dc.reset s1.dec = dc.reset s2.dec)
    (hok : (CoolInput.open_ fp dc s1 name).ok = true) :
    (CoolInput.open_ fp dc s1 name).state.out_chunk = Chunk.set_empty spk_unknown ∧
    (CoolInput.open_ fp dc s1 name).state.out_chunk.size = 0 ∧
    (∃ f0 d, (fp.load_frame f0).1 = true ∧
      (CoolInput.open_ fp dc s1 name).state.file = fp.seek (fp.load_frame f0).2 0 ∧
      (CoolInput.open_ fp dc s1 name).state.dec = dc.reset d ∧
      (CoolInput.open_ fp dc s1 name).state.file_spk = fp.get_spk (fp.load_frame f0).2 ∧
      (CoolInput.open_ fp dc s1 name).state.info_buf
        = fp.stream_info (fp.load_frame f0).2 1024) ∧
    (CoolInput.open_ fp dc s2 name).ok = true ∧
    (CoolInput.open_ fp dc s2 name).state = (CoolInput.open_ fp dc s1 name).state ∧
    (CoolInput.open_ fp dc s2 name).log = (CoolInput.open_ fp dc s1 name).log ∧
    (∀ fuel n, CoolInput.read fp dc fuel (CoolInput.open_ fp dc s2 name).state n
      = CoolInput.read fp dc fuel (CoolInput.open_ fp dc s1 name).state n) := by
  obtain ⟨f0, d, hl, hst⟩ := open_success_shape fp dc s1 name hok
  obtain ⟨hk, hlog, hstate⟩ := open_congr fp dc s1 s2 name hfile hdec
  have heq := hstate hok
  refine ⟨?_, ?_, ⟨f0, d, hl, ?_, ?_, ?_, ?_⟩, ?_, heq.symm, hlog.symm, ?_⟩
  · rw [hst]
  · rw [hst]
    rfl
  · rw [hst]
  · rw [hst]
  · rw [hst]
  · rw [hst]
  · rw [← hk]
    exact hok
  · intro fuel n
    rw [heq]

/-- C9 on the sample collaborators: opening from a reader that still holds
bytes of a previous file and from a closed one gives the same state. -/
theorem open_reset_isolation_witness :
    (sample_stale dts_valid_file).out_chunk.rawdata = [9, 9] ∧
    (CoolInput.open_ sample_source sample_decoder (sample_stale dts_valid_file)
      "b.dts").state.out_chunk.size = 0 ∧
    (CoolInput.open_ sample_source sample_decoder (sample_closed dts_valid_file) "b.dts").state
      = (CoolInput.open_ sample_source sample_decoder (sample_stale dts_valid_file) "b.dts").state :=
  have h := open_reset_isolation sample_source sample_decoder (sample_stale dts_valid_file)
    (sample_closed dts_valid_file) "b.dts" rfl rfl (by decide)
  ⟨rfl, h.2.1, h.2.2.2.2.1⟩

/-! ### The read loop -/

theorem produced_append (a b : List ReadEvent) :
    produced (a ++ b) = produced a ++ produced b := by
  induction a with
  | nil => rfl
  | cons e rest ih =>
    cases e with
    | get_chunk p ok bytes => cases ok <;> simp [produced, ih]
    | _ => simp [produced, ih]

/-- Draining keeps the invariant; it returns only with the request satisfied
and goes on only with the pending chunk empty, the parser and the decoder
untouched. -/
theorem drain_post {F D : Type} (pending : List Byte) (n : Nat) (l : ReadLoop F D)
    (h : ReadInv pending n l) :
    (∃ l1, CoolInput.drain l = Step.ret l1.out_size false l1 ∧ ReadInv pending n l1 ∧
      l1.size = 0) ∨
    (∃ l1, CoolInput.drain l = Step.cont l1 ∧ ReadInv pending n l1 ∧
      l1.self.out_chunk.rawdata = [] ∧ l1.self.file = l.self.file ∧ l1.self.dec = l.self.dec) := by
  obtain ⟨h1, h2, h3, h4⟩ := h
  unfold CoolInput.drain
  by_cases hz : l.self.out_chunk.size = 0
  · right
    refine ⟨l, by simp [hz], ⟨h1, h2, h3, h4⟩, ?_, rfl, rfl⟩
    exact List.length_eq_zero.mp hz
  · simp only [hz, ne_eq, not_false_eq_true, if_true]
    have hinv : ReadInv pending n
        ({ self := { l.self with out_chunk :=
              l.self.out_chunk.drop (min l.self.out_chunk.size l.size) }
           size := l.size - min l.self.out_chunk.size l.size
           out_size := l.out_size + min l.self.out_chunk.size l.size
           buf := l.buf ++ l.self.out_chunk.rawdata.take (min l.self.out_chunk.size l.size)
           log := l.log ++ [ReadEvent.memcpy l.self.out_chunk.size
                  (min l.self.out_chunk.size l.size)
                  (l.self.out_chunk.drop (min l.self.out_chunk.size l.size)).size] } :
          ReadLoop F D) := by
      refine ⟨?_, ?_, ?_, ?_⟩
      · simp only
        omega
      · simp only [List.length_append, List.length_take, Chunk.size] at *
        omega
      · simp only [Chunk.drop, List.append_assoc, List.take_append_drop, produced_append,
          produced, List.append_nil]
        exact h3
      · intro e he
        rcases List.mem_append.mp he with he | he
        · exact h4 e he
        · rw [List.mem_singleton] at he
          subst he
          simp only [ReadEvent.drained, Chunk.drop, Chunk.size, List.length_drop]
          omega
    by_cases hs : l.size - min l.self.out_chunk.size l.size = 0
    · left
      exact ⟨_, by simp only [hs, if_true], hinv, hs⟩
    · right
      refine ⟨_, by simp only [hs, if_false], hinv, ?_, rfl, rfl⟩
      simp only [Chunk.drop, Chunk.size] at *
      apply List.drop_eq_nil_of_le
      omega

/-- Producing, entered with nothing pending, keeps the invariant: it returns
the running total at `eof`, returns 0 on a refused decoder call, and goes on
either after one `dec.get_chunk` on a non-empty decoder or after one
`file.load_frame` on a parser not at `eof`. -/
theorem produce_post {F D : Type} (fp : FileParserOps F) (dc : DecoderOps D)
    (pending : List Byte) (n : Nat) (l : ReadLoop F D)
    (h : ReadInv pending n l) (he : l.self.out_chunk.rawdata = []) :
    (fp.eof l.self.file = true ∧ CoolInput.produce fp dc l = Step.ret l.out_size false l) ∨
    (∃ l1, CoolInput.produce fp dc l = Step.ret 0 true l1 ∧ ∀ e ∈ l1.log, e.drained) ∨
    (∃ l1, CoolInput.produce fp dc l = Step.cont l1 ∧ ReadInv pending n l1 ∧
      ((dc.is_empty l.self.dec = false ∧ l1.self.file = l.self.file ∧
          l1.self.dec = (dc.get_chunk l.self.dec l.self.out_chunk).2.2) ∨
       (fp.eof l.self.file = false ∧ l1.self.file = (fp.load_frame l.self.file).2))) := by
  obtain ⟨h1, h2, h3, h4⟩ := h
  have hsz : l.self.out_chunk.size = 0 := by simp [Chunk.size, he]
  unfold CoolInput.produce
  cases hde : dc.is_empty l.self.dec
  · -- the decoder holds data: `dec.get_chunk`
    simp only [Bool.not_false, if_true]
    have hlog : ∀ e ∈ l.log ++ [ReadEvent.get_chunk l.self.out_chunk.size
        (dc.get_chunk l.self.dec l.self.out_chunk).1
        (dc.get_chunk l.self.dec l.self.out_chunk).2.1.rawdata], e.drained := by
      intro e hmem
      rcases List.mem_append.mp hmem with hmem | hmem
      · exact h4 e hmem
      · rw [List.mem_singleton] at hmem
        subst hmem
        exact hsz
    cases hg : (dc.get_chunk l.self.dec l.self.out_chunk).1
    · right
      left
      simp only [Bool.not_false, if_true]
      refine ⟨_, rfl, ?_⟩
      rw [hg] at hlog
      exact hlog
    · right
      right
      simp only [Bool.not_true, Bool.false_eq_true, if_false]
      refine ⟨_, rfl, ⟨h1, h2, ?_, ?_⟩, Or.inl ⟨trivial, rfl, rfl⟩⟩
      · simp only [produced_append, produced, List.append_nil]
        rw [← List.append_assoc, ← h3, he, List.append_nil]
      · rw [hg] at hlog
        exact hlog
  · simp only [Bool.not_true, Bool.false_eq_true, if_false]
    cases heof : fp.eof l.self.file
    · -- not at the end: `file.load_frame`
      simp only [Bool.false_eq_true, if_false]
      right
      have hlog : ∀ e ∈ l.log ++ [ReadEvent.load_frame l.self.out_chunk.size true
          (fp.load_frame l.self.file).1], e.drained := by
        intro e hmem
        rcases List.mem_append.mp hmem with hmem | hmem
        · exact h4 e hmem
        · rw [List.mem_singleton] at hmem
          subst hmem
          exact ⟨hsz, rfl⟩
      cases hl : (fp.load_frame l.self.file).1
      · right
        simp only [Bool.false_eq_true, if_false]
        refine ⟨_, rfl, ⟨h1, h2, ?_, ?_⟩, Or.inr ⟨trivial, rfl⟩⟩
        · simp only [produced_append, produced, List.append_nil]
          exact h3
        · rw [hl] at hlog
          exact hlog
      · simp only [if_true]
        rw [hl] at hlog
        have hlog2 : ∀ p, ∀ e ∈ (l.log ++ [ReadEvent.load_frame l.self.out_chunk.size true
            true]) ++ [ReadEvent.process p], e.drained := by
          intro p e hmem
          rcases List.mem_append.mp hmem with hmem | hmem
          · exact hlog e hmem
          · rw [List.mem_singleton] at hmem
            subst hmem
            trivial
        cases hp : (dc.process l.self.dec (Chunk.set_rawdata
          (fp.get_spk (fp.load_frame l.self.file).2) (fp.get_frame (fp.load_frame l.self.file).2))).1
        · left
          simp only [Bool.not_false, if_true]
          exact ⟨_, rfl, hlog2 _⟩
        · right
          simp only [Bool.not_true, Bool.false_eq_true, if_false]
          refine ⟨_, rfl, ⟨h1, h2, ?_, hlog2 _⟩, Or.inr ⟨trivial, rfl⟩⟩
          simp only [produced_append, produced, List.append_nil]
          exact h3
    · left
      simp only [if_true]
      exact ⟨trivial, trivial⟩

/-- One pass of the loop keeps the invariant.  It returns the running total
with the request satisfied or the parser at `eof`, or returns 0 on a refused
decoder call, or goes on after exactly one `dec.get_chunk` on a non-empty
decoder or one `file.load_frame` on a parser not at `eof`. -/
theorem iterate_post {F D : Type} (fp : FileParserOps F) (dc : DecoderOps D)
    (pending : List Byte) (n : Nat) (l : ReadLoop F D) (h : ReadInv pending n l) :
    (∃ l1, CoolInput.iterate fp dc l = Step.ret l1.out_size false l1 ∧ ReadInv pending n l1 ∧
      (l1.size = 0 ∨ fp.eof l1.self.file = true)) ∨
    (∃ l1, CoolInput.iterate fp dc l = Step.ret 0 true l1 ∧ ∀ e ∈ l1.log, e.drained) ∨
    (∃ l1, CoolInput.iterate fp dc l = Step.cont l1 ∧ ReadInv pending n l1 ∧
      ((dc.is_empty l.self.dec = false ∧ l1.self.file = l.self.file ∧
          ∃ c, l1.self.dec = (dc.get_chunk l.self.dec c).2.2) ∨
       (fp.eof l.self.file = false ∧ l1.self.file = (fp.load_frame l.self.file).2))) := by
  unfold CoolInput.iterate
  rcases drain_post pending n l h with ⟨l1, hd, hinv, hs⟩ | ⟨l1, hd, hinv, he, hf, hdec⟩
  · left
    rw [hd]
    exact ⟨l1, rfl, hinv, Or.inl hs⟩
  · rw [hd]
    simp only
    rcases produce_post fp dc pending n l1 hinv he with ⟨heof, hp⟩ | ⟨l2, hp, hlog⟩ |
      ⟨l2, hp, hinv2, hstep⟩
    · left
      rw [hp]
      exact ⟨l1, rfl, hinv, Or.inr heof⟩
    · right
      left
      rw [hp]
      exact ⟨l2, rfl, hlog⟩
    · right
      right
      rw [hp]
      refine ⟨l2, rfl, hinv2, ?_⟩
      rcases hstep with ⟨h1, h2, h3⟩ | ⟨h1, h2⟩
      · left
        exact ⟨hdec ▸ h1, h2.trans hf, l1.self.out_chunk, hdec ▸ h3⟩
      · right
        exact ⟨hf ▸ h1, hf ▸ h2⟩

/-- The invariant holds wherever the loop stands after `fuel` passes, and a
`return` of the loop is one of the two described in `iterate_post`. -/
theorem read_loop_post {F D : Type} (fp : FileParserOps F) (dc : DecoderOps D)
    (pending : List Byte) (n : Nat) (fuel : Nat) (l : ReadLoop F D)
    (h : ReadInv pending n l) :
    (∃ l1, CoolInput.read_loop fp dc fuel l = Step.ret l1.out_size false l1 ∧
      ReadInv pending n l1 ∧ (l1.size = 0 ∨ fp.eof l1.self.file = true)) ∨
    (∃ l1, CoolInput.read_loop fp dc fuel l = Step.ret 0 true l1 ∧ ∀ e ∈ l1.log, e.drained) ∨
    (∃ l1, CoolInput.read_loop fp dc fuel l = Step.cont l1 ∧ ReadInv pending n l1) := by
  induction fuel generalizing l with
  | zero => exact Or.inr (Or.inr ⟨l, rfl, h⟩)
  | succ k ih =>
    unfold CoolInput.read_loop
    rcases iterate_post fp dc pending n l h with ⟨l1, hi, hinv, hs⟩ | ⟨l1, hi, hlog⟩ |
      ⟨l1, hi, hinv, _⟩
    · rw [hi]
      exact Or.inl ⟨l1, rfl, hinv, hs⟩
    · rw [hi]
      exact Or.inr (Or.inl ⟨l1, rfl, hlog⟩)
    · rw [hi]
      exact ih l1 hinv

/-- The loop state `CoolInput::read` enters its loop with satisfies the
invariant. -/
theorem read_inv_init {F D : Type} (s : CoolInput F D) (n : Nat) :
    ReadInv s.out_chunk.rawdata n
      ({ self := s, size := n, out_size := 0, buf := [], log := [] } : ReadLoop F D) := by
  refine ⟨by simp, rfl, by simp [produced], ?_⟩
  intro e he
  cases he

/-- With a parser whose every `load_frame` before `eof` lowers a rank `m` and
a decoder whose every `get_chunk` on a non-empty decoder lowers a rank `d`,
the loop returns after finitely many passes. -/
theorem read_loop_returns {F D : Type} (fp : FileParserOps F) (dc : DecoderOps D)
    (m : F → Nat) (d : D → Nat)
    (hm : ∀ f, fp.eof f = false → m (fp.load_frame f).2 < m f)
    (hd : ∀ x c, dc.is_empty x = false → d (dc.get_chunk x c).2.2 < d x)
    (pending : List Byte) (n : Nat) :
    ∀ (a b : Nat) (l : ReadLoop F D), m l.self.file < a → d l.self.dec < b →
      ReadInv pending n l →
      ∃ fuel v failed l1, CoolInput.read_loop fp dc fuel l = Step.ret v failed l1 := by
  intro a
  induction a with
  | zero =>
    intro b l ha
    exact absurd ha (Nat.not_lt_zero _)
  | succ a iha =>
    intro b
    induction b with
    | zero =>
      intro l _ hb
      exact absurd hb (Nat.not_lt_zero _)
    | succ b ihb =>
      intro l ha hb hinv
      rcases iterate_post fp dc pending n l hinv with ⟨l1, hi, _, _⟩ | ⟨l1, hi, _⟩ |
        ⟨l1, hi, hinv1, hstep⟩
      · exact ⟨1, l1.out_size, false, l1, by simp [CoolInput.read_loop, hi]⟩
      · exact ⟨1, 0, true, l1, by simp [CoolInput.read_loop, hi]⟩
      · have hnext : ∃ fuel v failed l2,
            CoolInput.read_loop fp dc fuel l1 = Step.ret v failed l2 := by
          rcases hstep with ⟨hne, hf, c, hc⟩ | ⟨hne, hf⟩
          · apply ihb l1
            · rw [hf]
              exact ha
            · have := hd l.self.dec c hne
              rw [hc]
              omega
            · exact hinv1
          · apply iha (d l1.self.dec + 1) l1
            · have := hm l.self.file hne
              rw [hf]
              omega
            · exact Nat.lt_succ_self _
            · exact hinv1
        obtain ⟨fuel, v, failed, l2, hr⟩ := hnext
        exact ⟨fuel + 1, v, failed, l2, by simp [CoolInput.read_loop, hi, hr]⟩

theorem sample_source_rank_decreases (f : SampleParser) (h : sample_source.eof f = false) :
    sample_source_rank (sample_source.load_frame f).2 < sample_source_rank f := by
  unfold sample_source_rank
  simp only [sample_source] at h ⊢
  cases hc : f.current with
  | none => simp [hc] at h
  | some file =>
    simp only [hc, decide_eq_false_iff_not, not_le] at h ⊢
    have hget : file.frames.get? f.pos = some (file.frames.get ⟨f.pos, h⟩) :=
      List.get?_eq_get h
    simp only [hget, hc]
    omega

theorem sample_decoder_rank_decreases (x : List Chunk) (c : Chunk)
    (h : sample_decoder.is_empty x = false) :
    (sample_decoder.get_chunk x c).2.2.length < x.length := by
  cases x with
  | nil => simp [sample_decoder] at h
  | cons y rest => simp [sample_decoder]

/-- On the stuck parser the loop never leaves a state with nothing pending
and an empty decoder. -/
theorem stuck_loop (fuel : Nat) (l : ReadLoop Unit (List Chunk))
    (h1 : l.self.out_chunk.rawdata = []) (h2 : l.self.dec = []) :
    ∃ l1, CoolInput.read_loop stuck_source sample_decoder fuel l = Step.cont l1 := by
  induction fuel generalizing l with
  | zero => exact ⟨l, rfl⟩
  | succ k ih =>
    unfold CoolInput.read_loop CoolInput.iterate CoolInput.drain CoolInput.produce
    simp only [Chunk.size, h1, h2, stuck_source, sample_decoder, List.length_nil, ne_eq,
      not_true_eq_false, if_false, List.isEmpty_nil, Bool.not_true, Bool.false_eq_true]
    exact ih _ h1 rfl

/-- C10: in every run of `CoolInput::read`, complete or cut short after any
number of passes, each `dec.get_chunk` is made with an empty pending chunk,
each `file.load_frame` with an empty pending chunk and an empty decoder, and
each copy takes `copy_size` bytes off the pending chunk, leaving exactly the
rest; the drain step hands over to the producing step only with the pending
chunk empty, and never makes it longer. -/
theorem read_drains_before_producing {F D : Type} (fp : FileParserOps F) (dc : DecoderOps D)
    (fuel : Nat) (s : CoolInput F D) (n : Nat) :
    (∀ e ∈ (CoolInput.read fp dc fuel s n).loop.log, e.drained) ∧
    (∀ l l1 : ReadLoop F D, CoolInput.drain l = Step.cont l1 → l1.self.out_chunk.size = 0) ∧
    (∀ l : ReadLoop F D,
      (CoolInput.drain l).loop.self.out_chunk.size + (CoolInput.drain l).loop.buf.length
        = l.self.out_chunk.size + l.buf.length) := by
  refine ⟨?_, ?_, ?_⟩
  · unfold CoolInput.read
    split
    · intro e he
      cases he
    · rcases read_loop_post fp dc s.out_chunk.rawdata n fuel _ (read_inv_init s n) with
        ⟨l1, hr, hinv, _⟩ | ⟨l1, hr, hlog⟩ | ⟨l1, hr, hinv⟩
      · rw [hr]
        exact hinv.2.2.2
      · rw [hr]
        exact hlog
      · rw [hr]
        exact hinv.2.2.2
  · intro l l1 h
    unfold CoolInput.drain at h
    by_cases hz : l.self.out_chunk.size = 0
    · simp only [hz, ne_eq, not_true_eq_false, if_false] at h
      cases h
      exact hz
    · simp only [hz, ne_eq, not_false_eq_true, if_true] at h
      by_cases hs : l.size - min l.self.out_chunk.size l.size = 0
      · simp only [hs, if_true] at h
        cases h
      · simp only [hs, if_false] at h
        cases h
        simp only [Chunk.drop, Chunk.size, List.length_drop] at *
        omega
  · intro l
    unfold CoolInput.drain
    by_cases hz : l.self.out_chunk.size = 0
    · simp [hz, Step.loop]
    · simp only [hz, ne_eq, not_false_eq_true, if_true]
      by_cases hs : l.size - min l.self.out_chunk.size l.size = 0 <;>
      simp only [hs, if_true, if_false, Step.loop] <;>
      simp only [Chunk.drop, Chunk.size, List.length_drop, List.length_append,
        List.length_take] <;>
      omega

/-- C4: a call of `read` for `n` bytes that ends without a refused decoder
call returns `v ≤ n`, has stored exactly `v` bytes, and these are the first
`v` bytes of what was pending followed by what the decoder delivered during
the call, the rest staying pending; `v < n` only with the parser at `eof` or
not open, so a call that ends with the parser open and not at `eof` returns
`n`.  This holds for every parser and decoder.  With collaborators that
cannot stall (each `load_frame` before `eof` lowers a rank `m`, each
`get_chunk` on a non-empty decoder lowers a rank `d`) the call does end. -/
theorem read_returns_requested {F D : Type} (fp : FileParserOps F) (dc : DecoderOps D)
    (s : CoolInput F D) (n : Nat) :
    (∀ fuel v l, CoolInput.read fp dc fuel s n = Step.ret v false l →
      v ≤ n ∧ l.buf.length = v ∧
      l.buf ++ l.self.out_chunk.rawdata = s.out_chunk.rawdata ++ produced l.log ∧
      l.buf = (s.out_chunk.rawdata ++ produced l.log).take v ∧
      (v < n → fp.eof l.self.file = true ∨ fp.is_open l.self.file = false) ∧
      (fp.is_open l.self.file = true → fp.eof l.self.file = false → v = n)) ∧
    (∀ (m : F → Nat) (d : D → Nat),
      (∀ f, fp.eof f = false → m (fp.load_frame f).2 < m f) →
      (∀ x c, dc.is_empty x = false → d (dc.get_chunk x c).2.2 < d x) →
      ∃ fuel v failed l, CoolInput.read fp dc fuel s n = Step.ret v failed l) := by
  rw [and_comm]
  constructor
  · intro m d hm hd
    unfold CoolInput.read
    split
    · exact ⟨0, _, _, _, rfl⟩
    · exact read_loop_returns fp dc m d hm hd s.out_chunk.rawdata n _ _ _
        (Nat.lt_succ_self _) (Nat.lt_succ_self _) (read_inv_init s n)
  · intro fuel v l h
    have key : ReadInv s.out_chunk.rawdata n l ∧ v = l.out_size ∧
        (l.size = 0 ∨ fp.eof l.self.file = true ∨ fp.is_open l.self.file = false) := by
      unfold CoolInput.read at h
      split at h
      · rename_i hc
        cases h
        refine ⟨read_inv_init s n, rfl, Or.inr ?_⟩
        cases ho : fp.is_open s.file
        · exact Or.inr rfl
        · simp only [ho, Bool.not_true, Bool.false_or] at hc
          exact Or.inl hc
      · rcases read_loop_post fp dc s.out_chunk.rawdata n fuel _ (read_inv_init s n) with
          ⟨l1, hr, hinv, hs⟩ | ⟨l1, hr, _⟩ | ⟨l1, hr, _⟩
        · rw [hr] at h
          cases h
          exact ⟨hinv, rfl, hs.imp_right Or.inl⟩
        · rw [hr] at h
          cases h
        · rw [hr] at h
          cases h
    obtain ⟨⟨h1, h2, h3, _⟩, hv, hend⟩ := key
    have hlen : l.buf.length = v := by rw [hv, h2]
    refine ⟨by omega, hlen, h3, ?_, ?_, ?_⟩
    · rw [← h3, ← hlen, List.take_left]
    · intro hlt
      rcases hend with hz | he
      · omega
      · exact he
    · intro ho he
      rcases hend with hz | he2 | ho2
      · omega
      · rw [he] at he2
        cases he2
      · rw [ho] at ho2
        cases ho2

/-- C4 on the sample collaborators: three bytes asked of the one-frame
reader, three first bytes of the frame returned. -/
theorem read_returns_requested_witness :
    (CoolInput.read sample_source sample_decoder 8 one_frame_reader 3).value = some 3 ∧
    (CoolInput.read sample_source sample_decoder 8 one_frame_reader 3).loop.buf = [1, 2, 3] ∧
    ∃ fuel v failed l,
      CoolInput.read sample_source sample_decoder fuel one_frame_reader 3 = Step.ret v failed l :=
  ⟨by decide, by decide,
    (read_returns_requested sample_source sample_decoder one_frame_reader 3).2
      sample_source_rank List.length
      sample_source_rank_decreases sample_decoder_rank_decreases⟩

/-- C2 as stated fails: on a parser whose `load_frame` fails without the
parser reporting `eof`, a call `read(buf, 1)` on an open reader repeats the
pull for ever; no number of passes reaches a `return`. -/
theorem read_diverges_on_stuck_source :
    CoolInput.is_open stuck_source stuck_reader = true ∧
    (stuck_source.load_frame stuck_reader.file).1 = false ∧
    ¬ ∃ fuel v failed l,
      CoolInput.read stuck_source sample_decoder fuel stuck_reader 1 = Step.ret v failed l := by
  refine ⟨rfl, rfl, ?_⟩
  rintro ⟨fuel, v, failed, l, h⟩
  unfold CoolInput.read at h
  simp only [stuck_source, Bool.not_true, Bool.or_self, Bool.false_eq_true, if_false] at h
  obtain ⟨l1, hl⟩ := stuck_loop fuel
    { self := stuck_reader, size := 1, out_size := 0, buf := [], log := [] } rfl rfl
  simp only [stuck_source] at hl
  rw [hl] at h
  cases h

/-- C2, amended: `read` returns after finitely many passes whenever the
collaborators cannot stall, that is, each `load_frame` before `eof` lowers a
rank `m` of the parser and each `get_chunk` on a non-empty decoder lowers a
rank `d` of the decoder.  When a pull yields no frame and the parser then
reports `eof`, the call ends on the next pass as end-of-input. -/
theorem read_returns {F D : Type} (fp : FileParserOps F) (dc : DecoderOps D)
    (m : F → Nat) (d : D → Nat)
    (hm : ∀ f, fp.eof f = false → m (fp.load_frame f).2 < m f)
    (hd : ∀ x c, dc.is_empty x = false → d (dc.get_chunk x c).2.2 < d x)
    (s : CoolInput F D) (n : Nat) :
    (∃ fuel v failed l, CoolInput.read fp dc fuel s n = Step.ret v failed l) ∧
    (fp.is_open s.file = true → fp.eof s.file = false → s.out_chunk.rawdata = [] →
      dc.is_empty s.dec = true → (fp.load_frame s.file).1 = false →
      fp.eof (fp.load_frame s.file).2 = true →
      ∃ l, CoolInput.read fp dc 2 s n = Step.ret 0 false l ∧ l.buf = []) := by
  constructor
  · unfold CoolInput.read
    split
    · exact ⟨0, _, _, _, rfl⟩
    · exact read_loop_returns fp dc m d hm hd s.out_chunk.rawdata n _ _ _
        (Nat.lt_succ_self _) (Nat.lt_succ_self _) (read_inv_init s n)
  · intro ho he hp hde hl he2
    simp [CoolInput.read, CoolInput.read_loop, CoolInput.iterate, CoolInput.drain,
      CoolInput.produce, Chunk.size, ho, he, hp, hde, hl, he2]

/-- C2, amended, on the sample collaborators. -/
theorem read_returns_witness :
    ∃ fuel v failed l,
      CoolInput.read sample_source sample_decoder fuel one_frame_reader 3 = Step.ret v failed l :=
  (read_returns sample_source sample_decoder sample_source_rank List.length
    sample_source_rank_decreases sample_decoder_rank_decreases one_frame_reader 3).1

/-- C1 fails on the code: the sample file holds one frame of four bytes and
the parser reports `eof` once that frame is loaded.  On the reader `open`
leaves, one `read` of 4 bytes returns all four (and the next returns 0).  A
`read` of 2 bytes returns the first two and leaves the other two pending; the
next `read` of 2 bytes meets `file.eof()` on line 145 and returns 0, and so
does every later one whatever its size: bytes 3 and 4 are never delivered,
and reading until 0 yields 4 bytes by fours and 2 bytes by twos. -/
theorem read_drops_pending_at_eof :
    (CoolInput.open_ sample_source sample_decoder (sample_closed one_frame_file) "a.ac3").ok
      = true ∧
    CoolInput.is_open sample_source one_frame_reader = true ∧
    (CoolInput.read sample_source sample_decoder 8 one_frame_reader 4).value = some 4 ∧
    (CoolInput.read sample_source sample_decoder 8 one_frame_reader 4).loop.buf = [1, 2, 3, 4] ∧
    (CoolInput.read sample_source sample_decoder 8 one_frame_reader 2).value = some 2 ∧
    (CoolInput.read sample_source sample_decoder 8 one_frame_reader 2).loop.buf = [1, 2] ∧
    (CoolInput.read sample_source sample_decoder 8 one_frame_reader
      2).loop.self.out_chunk.rawdata = [3, 4] ∧
    (CoolInput.read sample_source sample_decoder 8
      (CoolInput.read sample_source sample_decoder 8 one_frame_reader 2).loop.self
      2).value = some 0 ∧
    (CoolInput.read sample_source sample_decoder 8
      (CoolInput.read sample_source sample_decoder 8 one_frame_reader 2).loop.self
      2).loop.buf = [] ∧
    (∀ fuel n, (CoolInput.read sample_source sample_decoder fuel
      (CoolInput.read sample_source sample_decoder 8 one_frame_reader 2).loop.self
      n).value = some 0) ∧
    (CoolInput.read sample_source sample_decoder 8
      (CoolInput.read sample_source sample_decoder 8 one_frame_reader 4).loop.self
      4).value = some 0 := by
  refine ⟨?_, ?_, ?_, ?_, ?_, ?_, ?_, ?_, ?_, ?_, ?_⟩
  · decide
  · decide
  · decide
  · decide
  · decide
  · decide
  · decide
  · decide
  · decide
  · intro fuel n
    have he : sample_source.eof
        (CoolInput.read sample_source sample_decoder 8 one_frame_reader 2).loop.self.file
        = true := by decide
    generalize (CoolInput.read sample_source sample_decoder 8 one_frame_reader 2).loop.self
      = s1 at he ⊢
    simp [CoolInput.read, he, Step.value]
  · decide

/-! ### The write loop -/

/-- Wherever the write loop stands after `fuel` passes: either a pull or a
push was refused and 0 is returned, nothing having been fed again; or the
pipeline reported empty and the total of the pushed sizes is returned; or the
loop is still running with its invariant. -/
theorem write_loop_post {P K : Type} (pp : PipelineOps P) (sk : SinkOps K) (chunk : Chunk)
    (fuel : Nat) (l : WriteLoop P K) (h : WriteInv chunk l) :
    (∃ l1, CoolOutput.write_loop pp sk fuel l = WriteStep.ret 0 l1 ∧ refused l1.log = true ∧
      fed l1.log = [chunk]) ∨
    (∃ l1, CoolOutput.write_loop pp sk fuel l = WriteStep.ret (int_of_size l1.out_size) l1 ∧
      WriteInv chunk l1 ∧ pp.is_empty l1.self.pipe = true) ∨
    (∃ l1, CoolOutput.write_loop pp sk fuel l = WriteStep.cont l1 ∧ WriteInv chunk l1) := by
  induction fuel generalizing l with
  | zero => exact Or.inr (Or.inr ⟨l, rfl, h⟩)
  | succ k ih =>
    obtain ⟨h1, h2, h3, h4⟩ := h
    unfold CoolOutput.write_loop
    cases he : pp.is_empty l.self.pipe
    · simp only [Bool.not_false, if_true]
      cases hg : (pp.get_chunk l.self.pipe l.chunk).1
      · left
        simp only [Bool.not_false, if_true]
        refine ⟨_, rfl, ?_, ?_⟩
        · simp [refused]
        · simpa [fed] using h1
      · simp only [Bool.not_true, Bool.false_eq_true, if_false]
        cases hk : (sk.process l.self.sink (pp.get_chunk l.self.pipe l.chunk).2.1).1
        · left
          simp only [Bool.not_false, if_true]
          refine ⟨_, rfl, ?_, ?_⟩
          · simp [refused]
          · simpa [fed] using h1
        · simp only [Bool.not_true, Bool.false_eq_true, if_false]
          apply ih
          refine ⟨?_, ?_, ?_, ?_⟩
          · simpa [fed] using h1
          · simpa [refused] using h2
          · simp only [pushed, pulled] at h3 ⊢
            simp [h3]
          · simp only [pushed, total_size] at h4 ⊢
            simp [h4]
    · right
      left
      simp only [Bool.not_true, Bool.false_eq_true, if_false]
      exact ⟨l, rfl, ⟨h1, h2, h3, h4⟩, he⟩

/-- With a pipeline whose every `get_chunk` on a non-empty pipeline lowers a
rank `r`, the write loop returns after finitely many passes. -/
theorem write_loop_returns {P K : Type} (pp : PipelineOps P) (sk : SinkOps K) (r : P → Nat)
    (hr : ∀ x c, pp.is_empty x = false → r (pp.get_chunk x c).2.2 < r x) :
    ∀ (a : Nat) (l : WriteLoop P K), r l.self.pipe < a →
      ∃ fuel v l1, CoolOutput.write_loop pp sk fuel l = WriteStep.ret v l1 := by
  intro a
  induction a with
  | zero =>
    intro l ha
    exact absurd ha (Nat.not_lt_zero _)
  | succ a ih =>
    intro l ha
    cases he : pp.is_empty l.self.pipe
    · cases hg : (pp.get_chunk l.self.pipe l.chunk).1
      · exact ⟨1, 0, _, by simp [CoolOutput.write_loop, he, hg]; rfl⟩
      · cases hk : (sk.process l.self.sink (pp.get_chunk l.self.pipe l.chunk).2.1).1
        · exact ⟨1, 0, _, by simp [CoolOutput.write_loop, he, hg, hk]; rfl⟩
        · have hlt := hr l.self.pipe l.chunk he
          obtain ⟨fuel, v, l1, hw⟩ := ih
            { self := { l.self with
                  pipe := (pp.get_chunk l.self.pipe l.chunk).2.2
                  sink := (sk.process l.self.sink (pp.get_chunk l.self.pipe l.chunk).2.1).2 }
              chunk := (pp.get_chunk l.self.pipe l.chunk).2.1
              out_size := l.out_size + (pp.get_chunk l.self.pipe l.chunk).2.1.size
              log := (l.log ++ [OutEvent.chain_get_chunk true
                    (pp.get_chunk l.self.pipe l.chunk).2.1]) ++
                  [OutEvent.sink_process (pp.get_chunk l.self.pipe l.chunk).2.1 true] }
            (by simp only; omega)
          refine ⟨fuel + 1, v, l1, ?_⟩
          rw [← hw]
          simp [CoolOutput.write_loop, he, hg, hk]
    · exact ⟨1, int_of_size l.out_size, l, by simp [CoolOutput.write_loop, he]⟩

theorem int_of_size_small (n : Nat) (h : n < 2 ^ 31) : int_of_size n = (n : Int) := by
  unfold int_of_size
  have h1 : n % 2 ^ 32 = n := Nat.mod_eq_of_lt (by omega)
  rw [h1, if_pos h]

/-- The write loop only appends to the log. -/
theorem write_loop_log_grows {P K : Type} (pp : PipelineOps P) (sk : SinkOps K) :
    ∀ (k : Nat) (l : WriteLoop P K),
      ∃ rest, (CoolOutput.write_loop pp sk k l).loop.log = l.log ++ rest := by
  intro k
  induction k with
  | zero =>
    intro l
    exact ⟨[], by simp [CoolOutput.write_loop, WriteStep.loop]⟩
  | succ k ih =>
    intro l
    unfold CoolOutput.write_loop
    simp only []
    split
    · split
      · exact ⟨_, rfl⟩
      · split
        · exact ⟨_, by simp only [WriteStep.loop, List.append_assoc]; rfl⟩
        · obtain ⟨rest, h⟩ := ih
            { self := { l.self with
                  pipe := (pp.get_chunk l.self.pipe l.chunk).2.2
                  sink := (sk.process l.self.sink (pp.get_chunk l.self.pipe l.chunk).2.1).2 }
              chunk := (pp.get_chunk l.self.pipe l.chunk).2.1
              out_size := l.out_size + (pp.get_chunk l.self.pipe l.chunk).2.1.size
              log := (l.log ++ [OutEvent.chain_get_chunk (pp.get_chunk l.self.pipe l.chunk).1
                    (pp.get_chunk l.self.pipe l.chunk).2.1]) ++
                  [OutEvent.sink_process (pp.get_chunk l.self.pipe l.chunk).2.1
                    (sk.process l.self.sink (pp.get_chunk l.self.pipe l.chunk).2.1).1] }
          exact ⟨_, by rw [h, List.append_assoc, List.append_assoc]⟩
    · exact ⟨[], by simp [WriteStep.loop]⟩

/-- C5, amended: `CoolOutput::write` feeds the whole buffer to the head of the
pipeline once, as one chunk tagged with the recorded format, before anything
else.  If the feed is refused it returns 0 and offers nothing to the sink.
If any pull or push is refused it returns 0.  Otherwise it has pushed to the
sink every chunk the pipeline delivered, in order, the pipeline reports
empty, and the value returned is the total size of the pushed chunks narrowed
to the 32-bit `int` of the return type: the total itself when that is below
2^31, and 0 when the pipeline delivered nothing.  With a pipeline that cannot
deliver for ever (each `get_chunk` on a non-empty pipeline lowers `r`) the
call does return. -/
theorem write_flushes_pipeline {P K : Type} (pp : PipelineOps P) (sk : SinkOps K)
    (o : CoolOutput P K) (buf : List Byte) :
    (∀ r : P → Nat, (∀ x c, pp.is_empty x = false → r (pp.get_chunk x c).2.2 < r x) →
      ∃ fuel v l, CoolOutput.write pp sk fuel o buf = WriteStep.ret v l) ∧
    (∀ fuel,
      fed (CoolOutput.write pp sk fuel o buf).loop.log = [Chunk.set_rawdata o.spk buf] ∧
      (CoolOutput.write pp sk fuel o buf).loop.log.head?
        = some (OutEvent.chain_process (Chunk.set_rawdata o.spk buf)
            (pp.process o.pipe (Chunk.set_rawdata o.spk buf)).1)) ∧
    ((pp.process o.pipe (Chunk.set_rawdata o.spk buf)).1 = false →
      ∀ fuel, (CoolOutput.write pp sk fuel o buf).value = some 0 ∧
        offered (CoolOutput.write pp sk fuel o buf).loop.log = []) ∧
    (∀ fuel v l, CoolOutput.write pp sk fuel o buf = WriteStep.ret v l →
      (refused l.log = true → v = 0) ∧
      (refused l.log = false →
        pushed l.log = pulled l.log ∧ pp.is_empty l.self.pipe = true ∧
        v = int_of_size (total_size (pushed l.log)) ∧
        (total_size (pushed l.log) < 2 ^ 31 → v = (total_size (pushed l.log) : Int)) ∧
        (pulled l.log = [] → v = 0))) := by
  have hinit : (pp.process o.pipe (Chunk.set_rawdata o.spk buf)).1 = true →
      WriteInv (Chunk.set_rawdata o.spk buf)
        ({ self := { o with pipe := (pp.process o.pipe (Chunk.set_rawdata o.spk buf)).2 }
           chunk := Chunk.set_rawdata o.spk buf
           out_size := 0
           log := [OutEvent.chain_process (Chunk.set_rawdata o.spk buf)
                    (pp.process o.pipe (Chunk.set_rawdata o.spk buf)).1] } : WriteLoop P K) := by
    intro hp
    refine ⟨?_, ?_, ?_, ?_⟩
    · simp [fed]
    · simp [refused, hp]
    · simp [pushed, pulled]
    · simp [pushed, total_size]
  have hhead : ∀ (k : Nat) (l : WriteLoop P K) (e : OutEvent), l.log.head? = some e →
      (CoolOutput.write_loop pp sk k l).loop.log.head? = some e := by
    intro k l e h
    obtain ⟨rest, hrest⟩ := write_loop_log_grows pp sk k l
    rw [hrest]
    cases hl : l.log with
    | nil => simp [hl] at h
    | cons x tl => simpa [hl] using h
  refine ⟨?_, ?_, ?_, ?_⟩
  · intro r hr
    cases hp : (pp.process o.pipe (Chunk.set_rawdata o.spk buf)).1
    · refine ⟨0, 0, (CoolOutput.write pp sk 0 o buf).loop, ?_⟩
      simp [CoolOutput.write, hp, WriteStep.loop]
    · obtain ⟨fuel, v, l1, hw⟩ := write_loop_returns pp sk r hr _
        ({ self := { o with pipe := (pp.process o.pipe (Chunk.set_rawdata o.spk buf)).2 }
           chunk := Chunk.set_rawdata o.spk buf
           out_size := 0
           log := [OutEvent.chain_process (Chunk.set_rawdata o.spk buf) true] } : WriteLoop P K)
        (Nat.lt_succ_self _)
      refine ⟨fuel, v, l1, ?_⟩
      unfold CoolOutput.write
      simp only [hp, Bool.not_true, Bool.false_eq_true, if_false]
      exact hw
  · intro fuel
    cases hp : (pp.process o.pipe (Chunk.set_rawdata o.spk buf)).1
    · simp [CoolOutput.write, hp, WriteStep.loop, fed]
    · unfold CoolOutput.write
      simp only [hp, Bool.not_true, Bool.false_eq_true, if_false]
      refine ⟨?_, hhead fuel _ _ rfl⟩
      rw [hp] at hinit
      rcases write_loop_post pp sk _ fuel _ (hinit rfl) with ⟨l1, hw, _, hf⟩ |
        ⟨l1, hw, hinv, _⟩ | ⟨l1, hw, hinv⟩
      · rw [hw]
        exact hf
      · rw [hw]
        exact hinv.1
      · rw [hw]
        exact hinv.1
  · intro hp fuel
    simp [CoolOutput.write, hp, WriteStep.value, WriteStep.loop, offered]
  · intro fuel v l hw
    unfold CoolOutput.write at hw
    cases hp : (pp.process o.pipe (Chunk.set_rawdata o.spk buf)).1
    · simp only [hp, Bool.not_false, if_true] at hw
      cases hw
      simp [refused]
    · rw [hp] at hinit
      simp only [hp, Bool.not_true, Bool.false_eq_true, if_false] at hw
      rcases write_loop_post pp sk _ fuel _ (hinit rfl) with ⟨l1, hw1, href, _⟩ |
        ⟨l1, hw1, hinv, hemp⟩ | ⟨l1, hw1, _⟩
      · rw [hw1] at hw
        cases hw
        exact ⟨fun _ => rfl, fun h => absurd (href.symm.trans h) (by decide)⟩
      · rw [hw1] at hw
        cases hw
        obtain ⟨_, h2, h3, h4⟩ := hinv
        refine ⟨fun h => absurd (h.symm.trans h2) (by decide),
          fun _ => ⟨h3, hemp, (by rw [h4]), ?_, ?_⟩⟩
        · intro hlt
          rw [h4]
          exact int_of_size_small _ hlt
        · intro hnil
          rw [h4, h3, hnil]
          rfl
      · rw [hw1] at hw
        cases hw

theorem sample_pipeline_rank_decreases (x : List Chunk) (c : Chunk)
    (h : sample_pipeline.is_empty x = false) :
    (sample_pipeline.get_chunk x c).2.2.length < x.length := by
  cases x with
  | nil => simp [sample_pipeline] at h
  | cons y rest => simp [sample_pipeline]

/-- C5 on the sample collaborators: four bytes written, one chunk of two bytes
delivered by the pipeline and pushed, 2 returned. -/
theorem write_flushes_pipeline_witness :
    (CoolOutput.write sample_pipeline sample_sink 8 sample_open_output [1, 2, 3, 4]).value
      = some 2 ∧
    (CoolOutput.write sample_pipeline sample_sink 8 sample_open_output
      [1, 2, 3, 4]).loop.self.sink.2
      = [{ spk := make_spk 16 2 48000, rawdata := [1, 2] }] ∧
    ∃ fuel v l,
      CoolOutput.write sample_pipeline sample_sink fuel sample_open_output [1, 2, 3, 4]
        = WriteStep.ret v l :=
  ⟨by decide, by decide,
    (write_flushes_pipeline sample_pipeline sample_sink sample_open_output [1, 2, 3, 4]).1
      List.length sample_pipeline_rank_decreases⟩

/-- One `write` on a one-chunk pipeline: nothing is refused, the one chunk is
pushed, and the value returned is its size narrowed to `int`. -/
theorem one_chunk_write (data : List Byte) :
    refused (CoolOutput.write (one_chunk_pipeline data) sample_sink 2 one_chunk_output
      [1, 2, 3, 4]).loop.log = false ∧
    pushed (CoolOutput.write (one_chunk_pipeline data) sample_sink 2 one_chunk_output
      [1, 2, 3, 4]).loop.log = [{ spk := make_spk 16 2 48000, rawdata := data }] ∧
    (CoolOutput.write (one_chunk_pipeline data) sample_sink 2 one_chunk_output
      [1, 2, 3, 4]).value = some (int_of_size data.length) := by
  refine ⟨?_, ?_, ?_⟩ <;>
  simp [CoolOutput.write, CoolOutput.write_loop, one_chunk_pipeline, sample_sink,
    one_chunk_output, Chunk.set_rawdata, Chunk.size, WriteStep.loop, WriteStep.value,
    refused, pushed]

/-- C5 as stated fails: when the pipeline delivers one chunk of 2^31 bytes and
the sink accepts it, no feed, pull or push is refused and the sizes pushed
total 2147483648, yet `write` returns -2147483648, the total narrowed to
`int` on line 271. -/
theorem write_return_wraps_at_two_gib :
    refused (CoolOutput.write (one_chunk_pipeline (List.replicate two_gib 0)) sample_sink 2
      one_chunk_output [1, 2, 3, 4]).loop.log = false ∧
    total_size (pushed (CoolOutput.write (one_chunk_pipeline (List.replicate two_gib 0))
      sample_sink 2 one_chunk_output [1, 2, 3, 4]).loop.log) = 2147483648 ∧
    (CoolOutput.write (one_chunk_pipeline (List.replicate two_gib 0)) sample_sink 2
      one_chunk_output [1, 2, 3, 4]).value = some (-2147483648) ∧
    (CoolOutput.write (one_chunk_pipeline (List.replicate two_gib 0)) sample_sink 2
      one_chunk_output [1, 2, 3, 4]).value
      ≠ some ((total_size (pushed (CoolOutput.write
          (one_chunk_pipeline (List.replicate two_gib 0)) sample_sink 2 one_chunk_output
          [1, 2, 3, 4]).loop.log) : Nat) : Int) := by
  have ht : two_gib = 2147483648 := by
    unfold two_gib
    norm_num
  have hv : int_of_size two_gib = -2147483648 := by
    rw [ht]
    unfold int_of_size
    norm_num
  obtain ⟨h1, h2, h3⟩ := one_chunk_write (List.replicate two_gib 0)
  have hsum : total_size (pushed (CoolOutput.write
      (one_chunk_pipeline (List.replicate two_gib 0)) sample_sink 2 one_chunk_output
      [1, 2, 3, 4]).loop.log) = 2147483648 := by
    rw [h2]
    simp only [total_size, List.map_cons, List.map_nil, List.sum_cons, List.sum_nil,
      Chunk.size, List.length_replicate, Nat.add_zero]
    exact ht
  have hval : (CoolOutput.write (one_chunk_pipeline (List.replicate two_gib 0)) sample_sink 2
      one_chunk_output [1, 2, 3, 4]).value = some (-2147483648) := by
    rw [h3, List.length_replicate, hv]
  refine ⟨h1, hsum, hval, ?_⟩
  rw [hval, hsum]
  intro h
  cases h

end Audition
